import Mathlib

/-!
Shallow embedding of the Zant gateway middleware (src/middleware/zant.js).

JS strings are modelled as lists of characters.  JS numbers that flow
through parseInt are modelled as Option Int, with none standing for NaN.
The two process-wide stores (fingerprintStore, banStore) are modelled as
functions from fingerprint strings.  The keyed digest
crypto.createHmac("sha256", key).update(data).digest("hex") is an explicit
function parameter of every definition that uses it; hmacModel below is a
concrete executable stand-in used to evaluate the definitions on concrete
inputs.  crypto.timingSafeEqual throws a RangeError when its two buffers
have different byte lengths, so parseToken and everything that calls it
return a JsResult, whose thrown constructor models a raised exception.
-/

set_option maxRecDepth 100000

abbrev Str := List Char

/-- A JS number produced by parseInt: none models NaN. -/
abbrev JSNum := Option Int

/-- Embed a natural number as a JS number. -/
def nInt (n : Nat) : JSNum := some (n : Int)

/-- A string containing no pipe separator. -/
def NoPipe (s : Str) : Prop := '|' ∉ s

instance (s : Str) : Decidable (NoPipe s) := inferInstanceAs (Decidable ('|' ∉ s))

/-- token.split('|'): splits a string at every pipe character.  On the empty
string JS returns [""], matching the base case. -/
def splitPipe : Str → List Str
  | [] => [[]]
  | c :: rest =>
    if c = '|' then [] :: splitPipe rest
    else
      match splitPipe rest with
      | [] => [[c]]
      | p :: ps => (c :: p) :: ps

/-- Template-literal join of fields with pipe separators. -/
def joinPipe : List Str → Str
  | [] => []
  | [p] => p
  | p :: q :: ps => p ++ '|' :: joinPipe (q :: ps)

/-- The character for a decimal digit value. -/
def digitChar (d : Nat) : Char := Char.ofNat (48 + d)

/-- The numeric value of a decimal digit character. -/
def digitVal (c : Char) : Nat := c.toNat - 48

/-- Big-endian decimal digits of n, structurally recursive on a fuel
argument so that it evaluates inside the kernel; fuel n is always enough. -/
def natDigitsAux : Nat → Nat → Str
  | 0, _ => []
  | fuel + 1, n => if n = 0 then [] else natDigitsAux fuel (n / 10) ++ [digitChar (n % 10)]

/-- Decimal rendering of a natural number (JS template-literal
stringification of a non-negative integer-valued number). -/
def natStr (n : Nat) : Str :=
  if n = 0 then ['0'] else natDigitsAux n n

/-- JS String() of an integer-valued number. -/
def intStr (i : Int) : Str :=
  if i < 0 then '-' :: natStr i.natAbs else natStr i.natAbs

/-- JS String() of a number that may be NaN. -/
def jsNumStr (n : JSNum) : Str :=
  match n with
  | some i => intStr i
  | none => "NaN".data

/-- Whitespace skipped by parseInt. -/
def isSpaceJS (c : Char) : Bool := c = ' ' || c = '\t' || c = '\n' || c = '\r'

/-- Longest decimal-digit prefix, none when it is empty. -/
def parseDigits (s : Str) : Option Nat :=
  let ds := s.takeWhile Char.isDigit
  if ds.isEmpty then none
  else some (ds.foldl (fun a c => a * 10 + digitVal c) 0)

/-- parseInt(s, 10): skip leading whitespace and an optional sign, read the
longest digit prefix; NaN (none) when no digit follows. -/
def parseIntJS (s : Str) : JSNum :=
  match s.dropWhile isSpaceJS with
  | [] => none
  | c :: rest =>
    if c = '-' then
      match parseDigits rest with
      | none => none
      | some n => some (-(n : Int))
    else if c = '+' then
      match parseDigits rest with
      | none => none
      | some n => some ((n : Int))
    else
      match parseDigits (c :: rest) with
      | none => none
      | some n => some ((n : Int))

/-- NaN-propagating increment (JS + 1). -/
def jsAdd1 (a : JSNum) : JSNum := a.map (· + 1)

/-- NaN-propagating subtraction of a clock value (JS a - now). -/
def jsSub (a : JSNum) (n : Nat) : JSNum := a.map (fun v => v - (n : Int))

/-- JS a > 0; false on NaN. -/
def jsPos (a : JSNum) : Bool :=
  match a with
  | some v => decide (0 < v)
  | none => false

/-- JS a > n; false on NaN. -/
def jsGtNat (a : JSNum) (n : Nat) : Bool :=
  match a with
  | some v => decide ((n : Int) < v)
  | none => false

/-- JS a >= n; false on NaN. -/
def jsGeNat (a : JSNum) (n : Nat) : Bool :=
  match a with
  | some v => decide ((n : Int) ≤ v)
  | none => false

/-- UTF-8 byte length of a string: the length of Buffer.from(s). -/
def utf8Len (s : Str) : Nat := s.foldl (fun a c => a + c.utf8Size) 0

/-- The sixteen lowercase hexadecimal characters. -/
def hexChars : Str := "0123456789abcdef".data

/-- Hex character of a digit value, defaulting inside the hex alphabet. -/
def hexDigitCh (d : Nat) : Char := hexChars.getD d '0'

/-- Fixed-width big-endian hex rendering; produces exactly w characters. -/
def natToHexW : Nat → Nat → Str
  | 0, _ => []
  | w + 1, n => natToHexW w (n / 16) ++ [hexDigitCh (n % 16)]

/-- A simple 256-bit rolling hash over a string. -/
def strHash (s : Str) : Nat :=
  s.foldl (fun a c => (a * 131 + c.toNat + 1) % (2 ^ 256)) 7

/-- Concrete executable keyed-digest model standing in for
crypto.createHmac("sha256", key).update(data).digest("hex") when the
definitions are evaluated on concrete inputs.  Like the real digest it
always yields 64 lowercase hex characters. -/
def hmacModel (key data : Str) : Str :=
  natToHexW 64 (strHash (key ++ Char.ofNat 0 :: data))

/-- Concrete executable model of
crypto.createHash("sha256").update(s).digest("hex"). -/
def shaModel (s : Str) : Str := natToHexW 64 (strHash s)

/-- What an hex digest output looks like: 64 characters drawn from the hex
alphabet (true of every value of the real digest and of hmacModel). -/
def HexDigest (s : Str) : Prop := s.length = 64 ∧ ∀ c ∈ s, c ∈ hexChars

/-- The parsed queue token (return object of parseToken). -/
structure QTok where
  id : Str
  allow_at : JSNum
  fail_count : JSNum
  ban_until : JSNum
  fingerprint : Str
  nonce : Str
deriving DecidableEq

/-- Result of running a JS computation that may throw. -/
inductive JsResult (α : Type) where
  | ok (val : α)
  | thrown
deriving DecidableEq

/-- makeToken(id, allowAt, failCount, banUntil, fingerprint, nonce, secret):
pipe-joins the six fields (template-literal stringification for the numeric
ones) and appends the keyed digest of the joined string. -/
def makeToken (hmac : Str → Str → Str) (id : Str) (allowAt failCount banUntil : JSNum)
    (fingerprint nonce secret : Str) : Str :=
  let data := joinPipe [id, jsNumStr allowAt, jsNumStr failCount, jsNumStr banUntil, fingerprint, nonce]
  data ++ '|' :: hmac secret data

/-- parseToken(token, secret): split on pipes, require exactly seven fields,
recompute the digest of the first six re-joined, and compare with
crypto.timingSafeEqual(Buffer.from(calc), Buffer.from(mac)) - which throws
when the byte lengths differ (modelled by thrown), returns false on content
mismatch (null result), and otherwise the parsed fields. -/
def parseToken (hmac : Str → Str → Str) (token secret : Str) : JsResult (Option QTok) :=
  match splitPipe token with
  | [id, aA, fC, bU, fp, nonce, mac] =>
    let data := joinPipe [id, aA, fC, bU, fp, nonce]
    let calcd := hmac secret data
    if utf8Len calcd ≠ utf8Len mac then .thrown
    else if calcd ≠ mac then .ok none
    else .ok (some ⟨id, parseIntJS aA, parseIntJS fC, parseIntJS bU, fp, nonce⟩)
  | _ => .ok none

/-- The request headers the gateway consults (missing header = none;
cookie-parser style lower-cased names). -/
structure Headers where
  userAgent : Option Str
  acceptLanguage : Option Str
  acceptEncoding : Option Str
  accept : Option Str
deriving DecidableEq

/-- The inbound request surface the middleware reads: path, originalUrl and
the two cookies it looks up in req.cookies (none = cookie absent). -/
structure Req where
  path : Str
  originalUrl : Str
  queueCookie : Option Str
  accessCookie : Option Str
  headers : Headers
deriving DecidableEq

/-- Per-fingerprint entry of fingerprintStore: request timestamps in
milliseconds and the suspicious-pattern counter. -/
structure FpData where
  requests : List Nat
  suspiciousCount : Nat
deriving DecidableEq

/-- fingerprintStore as a map from fingerprints. -/
abbrev FpStore := Str → Option FpData

/-- banStore entry: absolute expiry in seconds, reason, issue time. -/
structure BanRecord where
  untilSec : Nat
  reason : Str
  issuedAt : Nat
deriving DecidableEq

/-- banStore as a map from fingerprints. -/
abbrev BanStore := Str → Option BanRecord

/-- The fresh random hex ids (generateId results) a single request may
consume: genA is the first id drawn on a path, genB the second. -/
structure Fresh where
  genA : Str
  genB : Str
deriving DecidableEq

/-- Map.set on fingerprintStore. -/
def insertFp (s : FpStore) (k : Str) (v : FpData) : FpStore :=
  fun k2 => if k2 = k then some v else s k2

/-- Map.set on banStore. -/
def insertBan (s : BanStore) (k : Str) (v : BanRecord) : BanStore :=
  fun k2 => if k2 = k then some v else s k2

/-- Map.delete on banStore. -/
def eraseBan (s : BanStore) (k : Str) : BanStore :=
  fun k2 => if k2 = k then none else s k2

/-- generateFingerprint(req): sha256 hex digest of the four header values
(missing header contributes the empty string) joined with pipes.  The hash
function is an explicit parameter. -/
def generateFingerprint (sha : Str → Str) (h : Headers) : Str :=
  sha (joinPipe [h.userAgent.getD [], h.acceptLanguage.getD [],
                 h.acceptEncoding.getD [], h.accept.getD []])

/-- The fixed deny list of automated-tool user-agent signatures. -/
def suspiciousUAs : List Str :=
  ["bot".data, "crawler".data, "spider".data, "scraper".data,
   "curl".data, "wget".data, "python".data]

/-- detectSuspiciousPattern(req, fingerprint): suspicion tags computed from
the headers (the fingerprint argument of the source is unused there). -/
def detectSuspiciousPattern (h : Headers) : List Str :=
  let ua := h.userAgent.getD []
  let t1 : List Str := if ua = [] ∨ ua.length < 10 then ["missing_ua".data] else []
  let lua := ua.map Char.toLower
  let t2 : List Str :=
    if suspiciousUAs.any (fun sig => decide (sig <:+: lua)) then ["automated_tool".data] else []
  let t3 : List Str := if h.accept.getD [] = [] then ["missing_accept".data] else []
  t1 ++ t2 ++ t3

/-- The recognized configuration options the per-request decision logic can
read (names, labels and the stylesheet path only parameterize rendering and
cookie naming and are abstracted away).  powDifficulty is declared here
exactly because the source declares it. -/
structure Opts where
  waitSeconds : Nat
  maxLifetime : Nat
  maxFails : Nat
  banSeconds : Nat
  suspiciousPatternThreshold : Nat
  windowMs : Nat
  maxRequests : Nat
  powDifficulty : Nat
deriving DecidableEq

/-- The source's default config values for the fields of Opts. -/
def defaultOpts : Opts :=
  { waitSeconds := 5, maxLifetime := 3600, maxFails := 3, banSeconds := 300,
    suspiciousPatternThreshold := 10, windowMs := 60000, maxRequests := 20,
    powDifficulty := 4 }

/-- checkRateLimit(fingerprint): prune the timestamp list to the window,
reject when the pruned count reaches the maximum, else append now and
accept.  fpData is the very object stored in the Map, so the in-place
prune (fpData.requests = ...filter(...)) is visible in the store even on
the reject path whenever the entry existed; the explicit Map.set only
happens on the accept path. -/
def checkRateLimit (opts : Opts) (s : FpStore) (fp : Str) (nowMs : Nat) : Bool × FpStore :=
  let fpData := (s fp).getD ⟨[], 0⟩
  let pruned := fpData.requests.filter (fun (ts : Nat) => (nowMs : Int) - (ts : Int) < (opts.windowMs : Int))
  if opts.maxRequests ≤ pruned.length then
    (false, if (s fp).isSome then insertFp s fp ⟨pruned, fpData.suspiciousCount⟩ else s)
  else
    (true, insertFp s fp ⟨pruned ++ [nowMs], fpData.suspiciousCount⟩)

/-- isGloballyBanned(fingerprint): report an active ban (until, reason), and
lazily delete an expired record. -/
def isGloballyBanned (s : BanStore) (fp : Str) (now : Nat) : Option (Nat × Str) × BanStore :=
  match s fp with
  | none => (none, s)
  | some b => if now < b.untilSec then (some (b.untilSec, b.reason), s) else (none, eraseBan s fp)

/-- addGlobalBan(fingerprint, duration, reason). -/
def addGlobalBan (s : BanStore) (fp : Str) (duration : Nat) (reason : Str) (now : Nat) : BanStore :=
  insertBan s fp ⟨now + duration, reason, now⟩

/-- The static-asset extensions of the bypass regex. -/
def staticExts : List Str :=
  ["css".data, "js".data, "jpg".data, "jpeg".data, "png".data, "gif".data,
   "svg".data, "ico".data, "woff".data, "woff2".data, "ttf".data, "webp".data]

/-- req.path.startsWith('/_queue') || req.path.match(extension regex,
case-insensitive, anchored at the end). -/
def pathBypassed (p : Str) : Bool :=
  List.isPrefixOf ("/_queue".data) p ||
    staticExts.any (fun e => List.isSuffixOf ('.' :: e) (p.map Char.toLower))

/-- req.originalUrl || '/'. -/
def origOf (req : Req) : Str :=
  if req.originalUrl = [] then "/".data else req.originalUrl

/-- orig.startsWith('http://') || orig.startsWith('https://'). -/
def isAbsUrl (s : Str) : Bool :=
  List.isPrefixOf ("http://".data) s || List.isPrefixOf ("https://".data) s

/-- queueRaw ? parseToken(queueRaw, getActiveSecret()) : null - an absent or
empty (falsy) cookie is never parsed. -/
def parseQueue (hmac : Str → Str → Str) (secret : Str) (req : Req) : JsResult (Option QTok) :=
  let q := req.queueCookie.getD []
  if q = [] then .ok none else parseToken hmac q secret

/-- The two page modes of renderQueuePage. -/
inductive QMode where
  | first
  | retry
deriving DecidableEq

/-- The response document the gateway may emit, at the abstraction level of
the spec's PageRenderer interface: renderQueuePage(remaining, orig, mode)
and renderBlockedPage(seconds, reason). -/
inductive Page where
  | queuePG (remaining : Int) (orig : Str) (mode : QMode)
  | blockedPG (seconds : Int) (reason : Str)
deriving DecidableEq

/-- What the middleware does with the response: pass through to the hosting
application (next()), redirect, or send a rendered page. -/
inductive Act where
  | nextA
  | redirectA (dest : Str)
  | sendA (page : Page)
deriving DecidableEq

/-- Everything one gateway invocation decides and writes: the action, the
queue cookie write (value, expiry seconds), the access cookie write, whether
the access cookie was cleared, and the two stores after the call. -/
structure StepOut where
  act : Act
  queueSet : Option (Str × Nat)
  accessSet : Option (Str × Nat)
  accessCleared : Bool
  fpS : FpStore
  banS : BanStore

/-- The token-intake half of the middleware body (everything from reading
the queue cookie onward), split out of zantGateway for readability.
hasAccess is !!req.cookies[accessCookie], so an empty cookie is falsy. -/
def zantGatewayToken (hmac : Str → Str → Str) (opts : Opts) (secret : Str) (req : Req)
    (orig fp : Str) (now : Nat) (e : Fresh) (fpS : FpStore) (banS : BanStore) :
    JsResult StepOut :=
  match parseQueue hmac secret req with
  | .thrown => .thrown
  | .ok none =>
    let tok := makeToken hmac e.genA (nInt (now + opts.waitSeconds)) (nInt 0) (nInt 0) fp e.genB secret
    .ok ⟨.sendA (.queuePG (opts.waitSeconds : Int) orig .first),
         some (tok, now + opts.maxLifetime), none, false, fpS, banS⟩
  | .ok (some st) =>
    if st.fingerprint ≠ fp then
      let tok := makeToken hmac e.genA (nInt (now + opts.waitSeconds)) (nInt 0) (nInt 0) fp e.genB secret
      .ok ⟨.sendA (.queuePG (opts.waitSeconds : Int) orig .first),
           some (tok, now + opts.maxLifetime), none, true, fpS, banS⟩
    else if jsGtNat st.ban_until now then
      .ok ⟨.sendA (.blockedPG (st.ban_until.getD 0 - (now : Int)) ("too_many_requests".data)),
           none, none, true, fpS, banS⟩
    else
      let remaining := jsSub st.allow_at now
      if jsPos remaining then
        let failCount := jsAdd1 st.fail_count
        if jsGeNat failCount opts.maxFails then
          let banUntil := now + opts.banSeconds
          let allowAt := banUntil + opts.waitSeconds
          let tok := makeToken hmac st.id (nInt allowAt) (nInt 0) (nInt banUntil) fp st.nonce secret
          .ok ⟨.sendA (.blockedPG (opts.banSeconds : Int) ("too_many_requests".data)),
               some (tok, now + opts.maxLifetime), none, true, fpS,
               addGlobalBan banS fp opts.banSeconds ("too_many_requests".data) now⟩
        else
          let tok := makeToken hmac st.id st.allow_at failCount (nInt 0) fp st.nonce secret
          .ok ⟨.sendA (.queuePG (max (remaining.getD 0) 1) orig .retry),
               some (tok, now + opts.maxLifetime), none, false, fpS, banS⟩
      else
        let hasAccess := (req.accessCookie.getD []) ≠ []
        let accessSet := if hasAccess then none else some (e.genA, now + opts.maxLifetime)
        let tok := makeToken hmac st.id (nInt (now + opts.waitSeconds)) (nInt 0) (nInt 0) fp e.genB secret
        .ok ⟨.nextA, some (tok, now + opts.maxLifetime), accessSet, false, fpS, banS⟩

/-- The per-request middleware body returned by zantGateway(options):
bypass, open-redirect guard, fingerprint, global-ban check, rate limit,
suspicion check, then token intake.  In the suspicion step fpData is the
object stored in the Map (checkRateLimit has always set it on the accept
path), so the in-place counter increment is visible in the store even on
the ban branch, where the source skips the explicit Map.set. -/
def zantGateway (hmac : Str → Str → Str) (sha : Str → Str) (opts : Opts) (secret : Str)
    (req : Req) (nowMs : Nat) (e : Fresh) (fpS : FpStore) (banS : BanStore) :
    JsResult StepOut :=
  if pathBypassed req.path then .ok ⟨.nextA, none, none, false, fpS, banS⟩
  else
    let now := nowMs / 1000
    let orig := origOf req
    if isAbsUrl orig then .ok ⟨.redirectA ("/".data), none, none, false, fpS, banS⟩
    else
      let fp := generateFingerprint sha req.headers
      let gb := isGloballyBanned banS fp now
      match gb.1 with
      | some b =>
        .ok ⟨.sendA (.blockedPG ((b.1 : Int) - (now : Int)) b.2), none, none, false, fpS, gb.2⟩
      | none =>
        let rc := checkRateLimit opts fpS fp nowMs
        if rc.1 = false then
          .ok ⟨.sendA (.blockedPG (opts.banSeconds : Int) ("rate_limit".data)), none, none, false,
               rc.2, addGlobalBan gb.2 fp opts.banSeconds ("rate_limit".data) now⟩
        else
          let tags := detectSuspiciousPattern req.headers
          if tags = [] then zantGatewayToken hmac opts secret req orig fp now e rc.2 gb.2
          else
            let fpd := (rc.2 fp).getD ⟨[], 0⟩
            let sc := fpd.suspiciousCount + 1
            if opts.suspiciousPatternThreshold ≤ sc then
              let fpS2 := if (rc.2 fp).isSome then insertFp rc.2 fp ⟨fpd.requests, sc⟩ else rc.2
              .ok ⟨.sendA (.blockedPG ((2 * opts.banSeconds : Nat) : Int) ("suspicious_pattern".data)),
                   none, none, false, fpS2,
                   addGlobalBan gb.2 fp (2 * opts.banSeconds) ("suspicious_pattern".data) now⟩
            else
              zantGatewayToken hmac opts secret req orig fp now e
                (insertFp rc.2 fp ⟨fpd.requests, sc⟩) gb.2

/-! ## Lemmas about the pipe wire format -/

theorem splitPipe_ne_nil (l : Str) : splitPipe l ≠ [] := by
  induction l with
  | nil => simp [splitPipe]
  | cons c rest ih =>
    simp only [splitPipe]
    by_cases hc : c = '|'
    · simp [hc]
    · simp only [hc, if_false]
      cases h : splitPipe rest with
      | nil => simp
      | cons p ps => simp

theorem splitPipe_noPipe (a : Str) (h : NoPipe a) : splitPipe a = [a] := by
  induction a with
  | nil => rfl
  | cons c rest ih =>
    have hc : c ≠ '|' := by
      intro hcc; exact h (hcc ▸ List.mem_cons_self c rest)
    have hr : NoPipe rest := fun hm => h (List.mem_cons_of_mem c hm)
    simp only [splitPipe, hc, if_false, ih hr]

theorem splitPipe_sep (a b : Str) (h : NoPipe a) :
    splitPipe (a ++ '|' :: b) = a :: splitPipe b := by
  induction a with
  | nil => simp [splitPipe]
  | cons c rest ih =>
    have hc : c ≠ '|' := by
      intro hcc; exact h (hcc ▸ List.mem_cons_self c rest)
    have hr : NoPipe rest := fun hm => h (List.mem_cons_of_mem c hm)
    have hstep : (c :: rest) ++ '|' :: b = c :: (rest ++ '|' :: b) := rfl
    rw [hstep]
    simp only [splitPipe, hc, if_false]
    rw [ih hr]

theorem joinPipe_cons (p : Str) (ps : List Str) (h : ps ≠ []) :
    joinPipe (p :: ps) = p ++ '|' :: joinPipe ps := by
  cases ps with
  | nil => exact absurd rfl h
  | cons q qs => rfl

theorem splitPipe_joinPipe (parts : List Str) (hne : parts ≠ [])
    (h : ∀ p ∈ parts, NoPipe p) : splitPipe (joinPipe parts) = parts := by
  induction parts with
  | nil => exact absurd rfl hne
  | cons p ps ih =>
    cases ps with
    | nil => exact splitPipe_noPipe p (h p (List.mem_cons_self p []))
    | cons q qs =>
      rw [joinPipe_cons p (q :: qs) (by simp),
          splitPipe_sep _ _ (h p (List.mem_cons_self p (q :: qs))),
          ih (by simp) (fun r hr => h r (List.mem_cons_of_mem p hr))]

theorem joinPipe_inj (p1 p2 : List Str) (h1 : ∀ p ∈ p1, NoPipe p) (h2 : ∀ p ∈ p2, NoPipe p)
    (hne1 : p1 ≠ []) (hne2 : p2 ≠ []) (h : joinPipe p1 = joinPipe p2) : p1 = p2 := by
  rw [← splitPipe_joinPipe p1 hne1 h1, ← splitPipe_joinPipe p2 hne2 h2, h]

theorem splitPipe_length (l : Str) : (splitPipe l).length = l.count '|' + 1 := by
  induction l with
  | nil => simp [splitPipe]
  | cons c rest ih =>
    simp only [splitPipe]
    by_cases hc : c = '|'
    · simp [hc, List.count_cons, ih]
    · simp only [hc, if_false]
      cases h : splitPipe rest with
      | nil => exact absurd h (splitPipe_ne_nil rest)
      | cons p ps =>
        rw [h] at ih
        simp only [List.length_cons] at ih ⊢
        have hbeq : (c == '|') = false := by simpa using hc
        simp [List.count_cons, hbeq, ih]

/-! ## Lemmas about decimal stringification and parseInt -/

/-- The ten decimal digit characters. -/
def decChars : Str := "0123456789".data

theorem decChar_facts :
    ∀ c ∈ decChars, isSpaceJS c = false ∧ c ≠ '-' ∧ c ≠ '+' ∧
      c.isDigit = true ∧ c ≠ '|' ∧ digitVal c < 10 := by decide

theorem digitChar_mem_decChars (d : Nat) (h : d < 10) : digitChar d ∈ decChars := by
  interval_cases d <;> decide

theorem digitVal_digitChar (d : Nat) (h : d < 10) : digitVal (digitChar d) = d := by
  interval_cases d <;> decide

theorem natDigitsAux_mem (fuel n : Nat) : ∀ c ∈ natDigitsAux fuel n, c ∈ decChars := by
  induction fuel generalizing n with
  | zero => intro c hc; simp [natDigitsAux] at hc
  | succ fuel ih =>
    intro c hc
    simp only [natDigitsAux] at hc
    by_cases h0 : n = 0
    · simp [h0] at hc
    · simp only [h0, if_false, List.mem_append, List.mem_singleton] at hc
      rcases hc with h | h
      · exact ih _ c h
      · rw [h]; exact digitChar_mem_decChars _ (Nat.mod_lt n (by omega))

theorem natStr_subset_decChars (n : Nat) : ∀ c ∈ natStr n, c ∈ decChars := by
  intro c hc
  unfold natStr at hc
  by_cases h0 : n = 0
  · simp [h0] at hc
    simp [hc]; decide
  · simp only [h0, if_false] at hc
    exact natDigitsAux_mem n n c hc

theorem natDigitsAux_ne_nil (fuel n : Nat) (hf : n ≤ fuel) (h0 : n ≠ 0) :
    natDigitsAux fuel n ≠ [] := by
  cases fuel with
  | zero => omega
  | succ fuel => simp [natDigitsAux, h0]

theorem natStr_ne_nil (n : Nat) : natStr n ≠ [] := by
  unfold natStr
  by_cases h0 : n = 0
  · simp [h0]
  · simp only [h0, if_false]
    exact natDigitsAux_ne_nil n n (Nat.le_refl n) h0

theorem takeWhile_all (p : Char → Bool) (l : Str) (h : ∀ c ∈ l, p c = true) :
    l.takeWhile p = l := by
  induction l with
  | nil => rfl
  | cons c cs ih =>
    have h1 := h c (List.mem_cons_self c cs)
    have h2 := ih (fun x hx => h x (List.mem_cons_of_mem c hx))
    simp [List.takeWhile_cons, h1, h2]

theorem natDigitsAux_foldl (fuel : Nat) : ∀ n acc, n ≤ fuel →
    List.foldl (fun a c => a * 10 + digitVal c) acc (natDigitsAux fuel n) =
      acc * 10 ^ (natDigitsAux fuel n).length + n := by
  induction fuel with
  | zero =>
    intro n acc hn
    interval_cases n
    simp [natDigitsAux]
  | succ fuel ih =>
    intro n acc hn
    by_cases h0 : n = 0
    · simp [natDigitsAux, h0]
    · have hdiv := Nat.div_lt_self (Nat.pos_of_ne_zero h0) (by omega : 1 < 10)
      have hm : n / 10 ≤ fuel := by omega
      simp only [natDigitsAux, h0, if_false, List.foldl_append, List.foldl_cons, List.foldl_nil,
        List.length_append, List.length_cons, List.length_nil]
      rw [ih (n / 10) acc hm,
          digitVal_digitChar _ (Nat.mod_lt n (by omega))]
      have hnm := Nat.div_add_mod n 10
      calc (acc * 10 ^ (natDigitsAux fuel (n / 10)).length + n / 10) * 10 + n % 10
          = acc * (10 ^ (natDigitsAux fuel (n / 10)).length * 10) + (10 * (n / 10) + n % 10) := by
            ring
        _ = acc * 10 ^ ((natDigitsAux fuel (n / 10)).length + (0 + 1)) + n := by
            rw [← pow_succ, hnm]

theorem parseDigits_natStr (n : Nat) : parseDigits (natStr n) = some n := by
  unfold parseDigits
  have hall : ∀ c ∈ natStr n, Char.isDigit c = true := fun c hc =>
    (decChar_facts c (natStr_subset_decChars n c hc)).2.2.2.1
  rw [takeWhile_all _ _ hall]
  simp only [List.isEmpty_iff, natStr_ne_nil n, if_false]
  unfold natStr
  by_cases h0 : n = 0
  · simp [h0]; decide
  · simp only [h0, if_false]
    rw [natDigitsAux_foldl n n 0 (Nat.le_refl n)]
    simp

theorem parseIntJS_natStr (n : Nat) : parseIntJS (natStr n) = some (n : Int) := by
  obtain ⟨c, cs, hcc⟩ : ∃ c cs, natStr n = c :: cs := by
    cases h : natStr n with
    | nil => exact absurd h (natStr_ne_nil n)
    | cons c cs => exact ⟨c, cs, rfl⟩
  have hmem := natStr_subset_decChars n c (by rw [hcc]; exact List.mem_cons_self c cs)
  obtain ⟨hspace, hminus, hplus, _, _, _⟩ := decChar_facts c hmem
  unfold parseIntJS
  rw [hcc, List.dropWhile_cons, hspace]
  simp only [Bool.false_eq_true, if_false, hminus, hplus]
  rw [← hcc, parseDigits_natStr n]

theorem parseIntJS_intStr (i : Int) : parseIntJS (intStr i) = some i := by
  unfold intStr
  by_cases hneg : i < 0
  · simp only [hneg, if_true]
    unfold parseIntJS
    rw [List.dropWhile_cons]
    have hsp : isSpaceJS '-' = false := by decide
    rw [hsp]
    simp only [Bool.false_eq_true, if_false, if_pos rfl]
    rw [parseDigits_natStr]
    show some (-(i.natAbs : Int)) = some i
    congr 1
    omega
  · simp only [hneg, if_false]
    rw [parseIntJS_natStr]
    congr 1
    omega

theorem natStr_noPipe (n : Nat) : NoPipe (natStr n) := by
  intro hm
  exact (decChar_facts '|' (natStr_subset_decChars n '|' hm)).2.2.2.2.1 rfl

theorem intStr_noPipe (i : Int) : NoPipe (intStr i) := by
  unfold intStr
  by_cases hneg : i < 0
  · simp only [hneg, if_true]
    intro hm
    rcases List.mem_cons.mp hm with h | h
    · exact absurd h (by decide)
    · exact natStr_noPipe _ h
  · simp only [hneg, if_false]; exact natStr_noPipe _

theorem jsNumStr_noPipe (n : JSNum) : NoPipe (jsNumStr n) := by
  cases n with
  | some i => exact intStr_noPipe i
  | none => decide

/-! ## Hex digests: length, alphabet, byte length -/

theorem natToHexW_length (w n : Nat) : (natToHexW w n).length = w := by
  induction w generalizing n with
  | zero => rfl
  | succ w ih => simp [natToHexW, ih]

theorem hexDigitCh_mem (d : Nat) : hexDigitCh d ∈ hexChars := by
  unfold hexDigitCh List.getD
  cases h : hexChars.get? d with
  | none => simp; decide
  | some c => simp only [Option.getD_some]; exact List.get?_mem h

theorem natToHexW_mem (w n : Nat) : ∀ c ∈ natToHexW w n, c ∈ hexChars := by
  induction w generalizing n with
  | zero => intro c hc; simp [natToHexW] at hc
  | succ w ih =>
    intro c hc
    simp only [natToHexW, List.mem_append, List.mem_singleton] at hc
    rcases hc with h | h
    · exact ih _ c h
    · rw [h]; exact hexDigitCh_mem _

theorem hmacModel_hexDigest (key data : Str) : HexDigest (hmacModel key data) :=
  ⟨natToHexW_length 64 _, natToHexW_mem 64 _⟩

theorem shaModel_hexDigest (s : Str) : HexDigest (shaModel s) :=
  ⟨natToHexW_length 64 _, natToHexW_mem 64 _⟩

theorem hexDigest_noPipe (s : Str) (h : HexDigest s) : NoPipe s := by
  intro hm
  have := h.2 '|' hm
  revert this
  decide

theorem utf8Len_acc (s : Str) (acc : Nat) :
    s.foldl (fun a c => a + c.utf8Size) acc = acc + s.foldl (fun a c => a + c.utf8Size) 0 := by
  induction s generalizing acc with
  | nil => simp
  | cons c cs ih =>
    simp only [List.foldl_cons]
    rw [ih (acc + c.utf8Size), ih (0 + c.utf8Size)]
    omega

theorem utf8Len_cons (c : Char) (s : Str) : utf8Len (c :: s) = c.utf8Size + utf8Len s := by
  simp only [utf8Len, List.foldl_cons]
  rw [utf8Len_acc s (0 + c.utf8Size)]
  omega

theorem utf8Len_append (a b : Str) : utf8Len (a ++ b) = utf8Len a + utf8Len b := by
  induction a with
  | nil => simp [utf8Len]
  | cons c cs ih => simp only [List.cons_append, utf8Len_cons, ih]; omega

theorem utf8Len_ascii (s : Str) (h : ∀ c ∈ s, c.utf8Size = 1) : utf8Len s = s.length := by
  induction s with
  | nil => rfl
  | cons c cs ih =>
    rw [utf8Len_cons, h c (List.mem_cons_self c cs),
        ih (fun x hx => h x (List.mem_cons_of_mem c hx))]
    simp only [List.length_cons]
    omega

theorem hexChar_utf8Size (c : Char) (h : c ∈ hexChars) : c.utf8Size = 1 := by
  have hall : hexChars.all (fun x => x.utf8Size == 1) = true := by decide
  simpa using List.all_eq_true.mp hall c h

theorem hexDigest_utf8Len (s : Str) (h : HexDigest s) : utf8Len s = 64 := by
  rw [utf8Len_ascii s (fun c hc => hexChar_utf8Size c (h.2 c hc))]
  exact h.1

/-! ## Token codec round trip -/

theorem joinPipe_append_single (ps : List Str) (m : Str) (h : ps ≠ []) :
    joinPipe ps ++ '|' :: m = joinPipe (ps ++ [m]) := by
  induction ps with
  | nil => exact absurd rfl h
  | cons p qs ih =>
    cases qs with
    | nil => rfl
    | cons q rs =>
      have ih2 := ih (by simp)
      simp only [List.cons_append] at ih2 ⊢
      rw [joinPipe_cons p (q :: rs) (by simp), List.append_assoc, List.cons_append, ih2,
          joinPipe_cons p (q :: (rs ++ [m])) (by simp)]

theorem makeToken_some (hmac : Str → Str → Str) (id : Str) (aA fC bU : Int)
    (fp nonce secret : Str) :
    makeToken hmac id (some aA) (some fC) (some bU) fp nonce secret =
      joinPipe [id, intStr aA, intStr fC, intStr bU, fp, nonce,
        hmac secret (joinPipe [id, intStr aA, intStr fC, intStr bU, fp, nonce])] := by
  simp only [makeToken, jsNumStr]
  exact joinPipe_append_single _ _ (by simp)

theorem parseToken_seven (hmac : Str → Str → Str) (x0 x1 x2 x3 x4 x5 x6 tok secret : Str)
    (h : splitPipe tok = [x0, x1, x2, x3, x4, x5, x6]) :
    parseToken hmac tok secret =
      (if utf8Len (hmac secret (joinPipe [x0, x1, x2, x3, x4, x5])) ≠ utf8Len x6 then .thrown
       else if hmac secret (joinPipe [x0, x1, x2, x3, x4, x5]) ≠ x6 then .ok none
       else .ok (some ⟨x0, parseIntJS x1, parseIntJS x2, parseIntJS x3, x4, x5⟩)) := by
  unfold parseToken
  rw [h]

theorem parseToken_not_seven (hmac : Str → Str → Str) (tok secret : Str)
    (h : (splitPipe tok).length ≠ 7) : parseToken hmac tok secret = .ok none := by
  unfold parseToken
  rcases hsp : splitPipe tok with
    _ | ⟨x0, _ | ⟨x1, _ | ⟨x2, _ | ⟨x3, _ | ⟨x4, _ | ⟨x5, _ | ⟨x6, _ | ⟨x7, rest⟩⟩⟩⟩⟩⟩⟩⟩
  · rfl
  · rfl
  · rfl
  · rfl
  · rfl
  · rfl
  · rfl
  · rw [hsp] at h; simp at h
  · rfl

/-- Round trip of the token codec: parsing a freshly made token under the
same key recovers exactly the six fields.  The fields must contain no pipe
and the digest outputs must be hex digests (which the real HMAC-SHA256 hex
digest and hmacModel always are). -/
theorem parseToken_makeToken (hmac : Str → Str → Str)
    (Hh : ∀ k d, HexDigest (hmac k d))
    (id : Str) (aA fC bU : Int) (fp nonce secret : Str)
    (hid : NoPipe id) (hfp : NoPipe fp) (hn : NoPipe nonce) :
    parseToken hmac (makeToken hmac id (some aA) (some fC) (some bU) fp nonce secret) secret =
      .ok (some ⟨id, some aA, some fC, some bU, fp, nonce⟩) := by
  rw [makeToken_some]
  have hall : ∀ p ∈ [id, intStr aA, intStr fC, intStr bU, fp, nonce,
      hmac secret (joinPipe [id, intStr aA, intStr fC, intStr bU, fp, nonce])], NoPipe p := by
    intro p hp
    simp only [List.mem_cons, List.not_mem_nil, or_false] at hp
    rcases hp with rfl | rfl | rfl | rfl | rfl | rfl | rfl
    · exact hid
    · exact intStr_noPipe aA
    · exact intStr_noPipe fC
    · exact intStr_noPipe bU
    · exact hfp
    · exact hn
    · exact hexDigest_noPipe _ (Hh _ _)
  rw [parseToken_seven hmac _ _ _ _ _ _ _ _ _
    (splitPipe_joinPipe _ (by simp) hall)]
  rw [if_neg (by simp), if_neg (by simp), parseIntJS_intStr, parseIntJS_intStr, parseIntJS_intStr]

/-! ## Single-character alterations of a token -/

theorem noPipe_append_left {x y : Str} (h : NoPipe (x ++ y)) : NoPipe x :=
  fun hm => h (List.mem_append_left y hm)

theorem noPipe_append_right {x y : Str} (h : NoPipe (x ++ y)) : NoPipe y :=
  fun hm => h (List.mem_append_right x hm)

theorem noPipe_cons {c : Char} {y : Str} (hc : c ≠ '|') (h : NoPipe y) : NoPipe (c :: y) := by
  intro hm
  rcases List.mem_cons.mp hm with h1 | h1
  · exact hc h1.symm
  · exact h h1

theorem noPipe_cons_elim {c : Char} {y : Str} (h : NoPipe (c :: y)) : c ≠ '|' ∧ NoPipe y := by
  constructor
  · intro hc; exact h (hc ▸ List.mem_cons_self c y)
  · intro hm; exact h (List.mem_cons_of_mem c hm)

theorem single_alter_ne (u v : Str) (a b : Char) (hab : a ≠ b) :
    u ++ a :: v ≠ u ++ b :: v := by
  intro h
  have h2 := List.append_cancel_left h
  simp only [List.cons.injEq] at h2
  exact hab h2.1

/-- Altering one non-pipe character of a pipe-join of pipe-free parts to
another non-pipe character alters exactly one of the parts in exactly one
character, and splitting recovers the part list with that one part
replaced. -/
theorem splitPipe_alter (parts : List Str) (hne : parts ≠ []) (hnp : ∀ p ∈ parts, NoPipe p)
    (pre suf : Str) (a b : Char) (ha : a ≠ '|') (hb : b ≠ '|')
    (heq : joinPipe parts = pre ++ a :: suf) :
    ∃ i p1 p2 u v, i < parts.length ∧ parts.get? i = some p1 ∧
      p1 = u ++ a :: v ∧ p2 = u ++ b :: v ∧
      splitPipe (pre ++ b :: suf) = parts.set i p2 := by
  induction parts generalizing pre suf with
  | nil => exact absurd rfl hne
  | cons p qs ih =>
    cases qs with
    | nil =>
      have hp : NoPipe p := hnp p (List.mem_cons_self p [])
      have hpeq : p = pre ++ a :: suf := heq
      have hpre : NoPipe pre := noPipe_append_left (hpeq ▸ hp)
      have hsuf : NoPipe suf := (noPipe_cons_elim (noPipe_append_right (hpeq ▸ hp))).2
      refine ⟨0, p, pre ++ b :: suf, pre, suf, by simp, by simp, hpeq, rfl, ?_⟩
      rw [splitPipe_noPipe _ (by
        intro hm
        rcases List.mem_append.mp hm with h1 | h1
        · exact hpre h1
        · rcases List.mem_cons.mp h1 with h2 | h2
          · exact hb h2.symm
          · exact hsuf h2)]
      rfl
    | cons q rs =>
      have hp : NoPipe p := hnp p (List.mem_cons_self p (q :: rs))
      have hJ : joinPipe (p :: q :: rs) = p ++ '|' :: joinPipe (q :: rs) := rfl
      rw [hJ] at heq
      rcases List.append_eq_append_iff.mp heq with ⟨k, hk1, hk2⟩ | ⟨k, hk1, hk2⟩
      · -- pre = p ++ k, '|' :: J = k ++ a :: suf
        cases k with
        | nil =>
          simp only [List.nil_append, List.cons.injEq] at hk2
          exact absurd hk2.1.symm ha
        | cons k0 kr =>
          simp only [List.cons_append, List.cons.injEq] at hk2
          obtain ⟨hk0, hkr⟩ := hk2
          obtain ⟨i, p1, p2, u, v, hi, hget, hp1, hp2, hsplit⟩ :=
            ih (by simp) (fun r hr => hnp r (List.mem_cons_of_mem p hr)) kr suf hkr
          refine ⟨i + 1, p1, p2, u, v, by simpa using hi, by simpa using hget, hp1, hp2, ?_⟩
          have hnew : pre ++ b :: suf = p ++ '|' :: (kr ++ b :: suf) := by
            rw [hk1, ← hk0]
            simp [List.append_assoc]
          rw [hnew, splitPipe_sep _ _ hp, hsplit]
          rfl
      · -- p = pre ++ k, a :: suf = k ++ '|' :: J
        cases k with
        | nil =>
          simp only [List.nil_append, List.cons.injEq] at hk2
          exact absurd hk2.1 ha
        | cons k0 kr =>
          simp only [List.cons_append, List.cons.injEq] at hk2
          obtain ⟨hk0, hkr⟩ := hk2
          rw [← hk0] at hk1
          have hpre : NoPipe pre := noPipe_append_left (hk1 ▸ hp)
          have hkrp : NoPipe kr := (noPipe_cons_elim (noPipe_append_right (hk1 ▸ hp))).2
          refine ⟨0, p, pre ++ b :: kr, pre, kr, by simp, by simp, hk1, rfl, ?_⟩
          have hnew : pre ++ b :: suf = (pre ++ b :: kr) ++ '|' :: joinPipe (q :: rs) := by
            rw [hkr]
            simp [List.append_assoc]
          rw [hnew, splitPipe_sep _ _ (by
              intro hm
              rcases List.mem_append.mp hm with h1 | h1
              · exact hpre h1
              · rcases List.mem_cons.mp h1 with h2 | h2
                · exact hb h2.symm
                · exact hkrp h2),
            splitPipe_joinPipe (q :: rs) (by simp)
              (fun r hr => hnp r (List.mem_cons_of_mem p hr))]
          rfl

/-- The last part of splitting a string that ends in a pipe followed by a
pipe-free tail is exactly that tail. -/
theorem splitPipe_last_sep (a m : Str) (hm : NoPipe m) :
    (splitPipe (a ++ '|' :: m)).getLast? = some m := by
  induction a with
  | nil =>
    rw [List.nil_append,
        (by simp [splitPipe] : splitPipe ('|' :: m) = [] :: splitPipe m),
        splitPipe_noPipe m hm]
    rfl
  | cons c a2 ih =>
    have hstep : (c :: a2) ++ '|' :: m = c :: (a2 ++ '|' :: m) := rfl
    rw [hstep]
    simp only [splitPipe]
    by_cases hc : c = '|'
    · simp only [hc, if_true]
      cases h2 : splitPipe (a2 ++ '|' :: m) with
      | nil => exact absurd h2 (splitPipe_ne_nil _)
      | cons p ps =>
        rw [h2] at ih
        rw [List.getLast?_cons_cons]
        exact ih
    · simp only [hc, if_false]
      cases h2 : splitPipe (a2 ++ '|' :: m) with
      | nil => exact absurd h2 (splitPipe_ne_nil _)
      | cons p ps =>
        rw [h2] at ih
        have hlen := splitPipe_length (a2 ++ '|' :: m)
        rw [h2] at hlen
        have hc2 : 1 ≤ (a2 ++ '|' :: m).count '|' := by
          simp only [List.count_append, List.count_cons, beq_self_eq_true, if_true]
          omega
        cases ps with
        | nil =>
          simp only [List.length_cons, List.length_nil] at hlen
          omega
        | cons q qs =>
          rw [List.getLast?_cons_cons]
          rw [List.getLast?_cons_cons] at ih
          exact ih

/-- The data string of a token whose numeric fields are plain integers:
the first six wire fields joined with pipes. -/
def tokenData (id : Str) (aA fC bU : Int) (fp nonce : Str) : Str :=
  joinPipe [id, intStr aA, intStr fC, intStr bU, fp, nonce]

theorem digest_compare_cases (hmac : Str → Str → Str) (Hh : ∀ k d, HexDigest (hmac k d))
    (secret data2 data : Str) (w : JsResult (Option QTok)) (hne : data2 ≠ data) :
    (if utf8Len (hmac secret data2) ≠ utf8Len (hmac secret data) then JsResult.thrown
     else if hmac secret data2 ≠ hmac secret data then .ok none else w) = .ok none ∨
      ∃ d2, d2 ≠ data ∧ hmac secret d2 = hmac secret data := by
  by_cases hcol : hmac secret data2 = hmac secret data
  · exact Or.inr ⟨data2, hne, hcol⟩
  · left
    rw [if_neg (by rw [hexDigest_utf8Len _ (Hh secret data2), hexDigest_utf8Len _ (Hh secret data)]; simp),
        if_pos hcol]

theorem noPipe_append {x y : Str} (hx : NoPipe x) (hy : NoPipe y) : NoPipe (x ++ y) := by
  intro hm
  rcases List.mem_append.mp hm with h | h
  · exact hx h
  · exact hy h

/-- C1 (amended): for every valid six-field tuple (no field containing a
pipe) and key, parseToken(makeToken(fields, key), key) returns exactly those
fields; decoding with a key whose digest of the data differs returns absent
(null); and altering any single character of the token to a different
character makes decoding return absent (barring a keyed-digest collision on
the data string) whenever the altered position lies within the six data
fields or their pipe separators, and also whenever the replacement character
keeps the UTF-8 byte width.  The single remaining case - a width-changing
alteration of the trailing digest field - makes the source throw instead;
see the counterexample. -/
theorem c1_token_codec_amended (hmac : Str → Str → Str) (Hh : ∀ k d, HexDigest (hmac k d))
    (id : Str) (aA fC bU : Int) (fp nonce secret secret2 : Str)
    (hid : NoPipe id) (hfp : NoPipe fp) (hn : NoPipe nonce) :
    parseToken hmac (makeToken hmac id (some aA) (some fC) (some bU) fp nonce secret) secret =
        .ok (some ⟨id, some aA, some fC, some bU, fp, nonce⟩) ∧
    (hmac secret2 (tokenData id aA fC bU fp nonce) ≠ hmac secret (tokenData id aA fC bU fp nonce) →
      parseToken hmac (makeToken hmac id (some aA) (some fC) (some bU) fp nonce secret) secret2 =
        .ok none) ∧
    (∀ pre suf : Str, ∀ x y : Char, x ≠ y →
      makeToken hmac id (some aA) (some fC) (some bU) fp nonce secret = pre ++ x :: suf →
      ((pre.length ≤ (tokenData id aA fC bU fp nonce).length →
        parseToken hmac (pre ++ y :: suf) secret = .ok none ∨
          ∃ d2, d2 ≠ tokenData id aA fC bU fp nonce ∧
            hmac secret d2 = hmac secret (tokenData id aA fC bU fp nonce)) ∧
       (y.utf8Size = x.utf8Size →
        parseToken hmac (pre ++ y :: suf) secret = .ok none ∨
          ∃ d2, d2 ≠ tokenData id aA fC bU fp nonce ∧
            hmac secret d2 = hmac secret (tokenData id aA fC bU fp nonce)))) := by
  have hd_all : ∀ p ∈ [id, intStr aA, intStr fC, intStr bU, fp, nonce], NoPipe p := by
    intro p hp
    simp only [List.mem_cons, List.not_mem_nil, or_false] at hp
    rcases hp with rfl | rfl | rfl | rfl | rfl | rfl
    · exact hid
    · exact intStr_noPipe aA
    · exact intStr_noPipe fC
    · exact intStr_noPipe bU
    · exact hfp
    · exact hn
  have hall : ∀ p ∈ [id, intStr aA, intStr fC, intStr bU, fp, nonce,
      hmac secret (tokenData id aA fC bU fp nonce)], NoPipe p := by
    intro p hp
    simp only [List.mem_cons, List.not_mem_nil, or_false] at hp
    rcases hp with rfl | rfl | rfl | rfl | rfl | rfl | rfl
    · exact hid
    · exact intStr_noPipe aA
    · exact intStr_noPipe fC
    · exact intStr_noPipe bU
    · exact hfp
    · exact hn
    · exact hexDigest_noPipe _ (Hh _ _)
  have hmk : makeToken hmac id (some aA) (some fC) (some bU) fp nonce secret =
      joinPipe [id, intStr aA, intStr fC, intStr bU, fp, nonce,
        hmac secret (tokenData id aA fC bU fp nonce)] :=
    makeToken_some hmac id aA fC bU fp nonce secret
  have hsplit7 := splitPipe_joinPipe _ (by simp) hall
  refine ⟨parseToken_makeToken hmac Hh id aA fC bU fp nonce secret hid hfp hn, ?_, ?_⟩
  · intro hne
    rw [hmk, parseToken_seven hmac _ _ _ _ _ _ _ _ _ hsplit7]
    have hne2 : hmac secret2 (joinPipe [id, intStr aA, intStr fC, intStr bU, fp, nonce]) ≠
        hmac secret (tokenData id aA fC bU fp nonce) := hne
    rw [if_neg (by
      rw [hexDigest_utf8Len _ (Hh secret2 (joinPipe [id, intStr aA, intStr fC, intStr bU, fp, nonce])),
          hexDigest_utf8Len _ (Hh secret (tokenData id aA fC bU fp nonce))]
      simp), if_pos hne2]
  · intro pre suf x y hxy heq
    rw [hmk] at heq
    have heq2 : joinPipe [id, intStr aA, intStr fC, intStr bU, fp, nonce] ++ '|' ::
        hmac secret (tokenData id aA fC bU fp nonce) = pre ++ x :: suf := by
      rw [joinPipe_append_single _ _ (by simp)]
      exact heq
    have hcount : (joinPipe [id, intStr aA, intStr fC, intStr bU, fp, nonce,
        hmac secret (tokenData id aA fC bU fp nonce)]).count '|' = 6 := by
      have hlen := splitPipe_length (joinPipe [id, intStr aA, intStr fC, intStr bU, fp, nonce,
        hmac secret (tokenData id aA fC bU fp nonce)])
      rw [hsplit7] at hlen
      simp only [List.length_cons, List.length_nil] at hlen
      omega
    rw [heq] at hcount
    by_cases hxp : x = '|'
    · subst hxp
      have hyp : y ≠ '|' := fun h => hxy h.symm
      have hnone : parseToken hmac (pre ++ y :: suf) secret = .ok none := by
        apply parseToken_not_seven
        rw [splitPipe_length]
        simp only [List.count_append, List.count_cons, beq_self_eq_true, if_true,
          beq_iff_eq, hyp, if_false] at hcount ⊢
        omega
      exact ⟨fun _ => Or.inl hnone, fun _ => Or.inl hnone⟩
    · by_cases hyp : y = '|'
      · subst hyp
        have hnone : parseToken hmac (pre ++ '|' :: suf) secret = .ok none := by
          apply parseToken_not_seven
          rw [splitPipe_length]
          simp only [List.count_append, List.count_cons, beq_self_eq_true, if_true,
            beq_iff_eq, hxp, if_false] at hcount ⊢
          omega
        exact ⟨fun _ => Or.inl hnone, fun _ => Or.inl hnone⟩
      · obtain ⟨i, p1, p2, u, v, hi, hget, hp1, hp2, hsplit⟩ :=
          splitPipe_alter _ (by simp) hall pre suf x y hxp hyp heq
        simp only [List.length_cons, List.length_nil] at hi
        have hp12 : p1 ≠ p2 := by
          rw [hp1, hp2]; exact single_alter_ne u v x y hxy
        have hnp2 : ∀ q : Str, NoPipe q → p1 = q → NoPipe p2 := by
          intro q hq hpq
          have hq2 : NoPipe (u ++ x :: v) := by rw [← hp1, hpq]; exact hq
          rw [hp2]
          exact noPipe_append (noPipe_append_left hq2)
            (noPipe_cons hyp (noPipe_cons_elim (noPipe_append_right hq2)).2)
        interval_cases i
        · -- the id field is altered
          have hres : parseToken hmac (pre ++ y :: suf) secret = .ok none ∨
              ∃ d2, d2 ≠ tokenData id aA fC bU fp nonce ∧
                hmac secret d2 = hmac secret (tokenData id aA fC bU fp nonce) := by
            have hp1v : p1 = id := by simpa using hget.symm
            simp only [List.set_cons_zero, List.set_cons_succ] at hsplit
            rw [parseToken_seven hmac _ _ _ _ _ _ _ _ _ hsplit]
            refine digest_compare_cases hmac Hh secret _ _ _ ?_
            intro he
            have hl := joinPipe_inj _ _ (by
                intro q hq
                simp only [List.mem_cons, List.not_mem_nil, or_false] at hq
                rcases hq with rfl | rfl | rfl | rfl | rfl | rfl
                · exact hnp2 id hid hp1v
                · exact intStr_noPipe aA
                · exact intStr_noPipe fC
                · exact intStr_noPipe bU
                · exact hfp
                · exact hn) hd_all (by simp) (by simp) he
            simp only [List.cons.injEq, and_true, true_and] at hl
            exact (hp1v ▸ hp12) hl.symm
          exact ⟨fun _ => hres, fun _ => hres⟩
        · -- the allowAt field is altered
          have hres : parseToken hmac (pre ++ y :: suf) secret = .ok none ∨
              ∃ d2, d2 ≠ tokenData id aA fC bU fp nonce ∧
                hmac secret d2 = hmac secret (tokenData id aA fC bU fp nonce) := by
            have hp1v : p1 = intStr aA := by simpa using hget.symm
            simp only [List.set_cons_zero, List.set_cons_succ] at hsplit
            rw [parseToken_seven hmac _ _ _ _ _ _ _ _ _ hsplit]
            refine digest_compare_cases hmac Hh secret _ _ _ ?_
            intro he
            have hl := joinPipe_inj _ _ (by
                intro q hq
                simp only [List.mem_cons, List.not_mem_nil, or_false] at hq
                rcases hq with rfl | rfl | rfl | rfl | rfl | rfl
                · exact hid
                · exact hnp2 _ (intStr_noPipe aA) hp1v
                · exact intStr_noPipe fC
                · exact intStr_noPipe bU
                · exact hfp
                · exact hn) hd_all (by simp) (by simp) he
            simp only [List.cons.injEq, and_true, true_and] at hl
            exact (hp1v ▸ hp12) hl.symm
          exact ⟨fun _ => hres, fun _ => hres⟩
        · -- the failCount field is altered
          have hres : parseToken hmac (pre ++ y :: suf) secret = .ok none ∨
              ∃ d2, d2 ≠ tokenData id aA fC bU fp nonce ∧
                hmac secret d2 = hmac secret (tokenData id aA fC bU fp nonce) := by
            have hp1v : p1 = intStr fC := by simpa using hget.symm
            simp only [List.set_cons_zero, List.set_cons_succ] at hsplit
            rw [parseToken_seven hmac _ _ _ _ _ _ _ _ _ hsplit]
            refine digest_compare_cases hmac Hh secret _ _ _ ?_
            intro he
            have hl := joinPipe_inj _ _ (by
                intro q hq
                simp only [List.mem_cons, List.not_mem_nil, or_false] at hq
                rcases hq with rfl | rfl | rfl | rfl | rfl | rfl
                · exact hid
                · exact intStr_noPipe aA
                · exact hnp2 _ (intStr_noPipe fC) hp1v
                · exact intStr_noPipe bU
                · exact hfp
                · exact hn) hd_all (by simp) (by simp) he
            simp only [List.cons.injEq, and_true, true_and] at hl
            exact (hp1v ▸ hp12) hl.symm
          exact ⟨fun _ => hres, fun _ => hres⟩
        · -- the banUntil field is altered
          have hres : parseToken hmac (pre ++ y :: suf) secret = .ok none ∨
              ∃ d2, d2 ≠ tokenData id aA fC bU fp nonce ∧
                hmac secret d2 = hmac secret (tokenData id aA fC bU fp nonce) := by
            have hp1v : p1 = intStr bU := by simpa using hget.symm
            simp only [List.set_cons_zero, List.set_cons_succ] at hsplit
            rw [parseToken_seven hmac _ _ _ _ _ _ _ _ _ hsplit]
            refine digest_compare_cases hmac Hh secret _ _ _ ?_
            intro he
            have hl := joinPipe_inj _ _ (by
                intro q hq
                simp only [List.mem_cons, List.not_mem_nil, or_false] at hq
                rcases hq with rfl | rfl | rfl | rfl | rfl | rfl
                · exact hid
                · exact intStr_noPipe aA
                · exact intStr_noPipe fC
                · exact hnp2 _ (intStr_noPipe bU) hp1v
                · exact hfp
                · exact hn) hd_all (by simp) (by simp) he
            simp only [List.cons.injEq, and_true, true_and] at hl
            exact (hp1v ▸ hp12) hl.symm
          exact ⟨fun _ => hres, fun _ => hres⟩
        · -- the fingerprint field is altered
          have hres : parseToken hmac (pre ++ y :: suf) secret = .ok none ∨
              ∃ d2, d2 ≠ tokenData id aA fC bU fp nonce ∧
                hmac secret d2 = hmac secret (tokenData id aA fC bU fp nonce) := by
            have hp1v : p1 = fp := by simpa using hget.symm
            simp only [List.set_cons_zero, List.set_cons_succ] at hsplit
            rw [parseToken_seven hmac _ _ _ _ _ _ _ _ _ hsplit]
            refine digest_compare_cases hmac Hh secret _ _ _ ?_
            intro he
            have hl := joinPipe_inj _ _ (by
                intro q hq
                simp only [List.mem_cons, List.not_mem_nil, or_false] at hq
                rcases hq with rfl | rfl | rfl | rfl | rfl | rfl
                · exact hid
                · exact intStr_noPipe aA
                · exact intStr_noPipe fC
                · exact intStr_noPipe bU
                · exact hnp2 _ hfp hp1v
                · exact hn) hd_all (by simp) (by simp) he
            simp only [List.cons.injEq, and_true, true_and] at hl
            exact (hp1v ▸ hp12) hl.symm
          exact ⟨fun _ => hres, fun _ => hres⟩
        · -- the nonce field is altered
          have hres : parseToken hmac (pre ++ y :: suf) secret = .ok none ∨
              ∃ d2, d2 ≠ tokenData id aA fC bU fp nonce ∧
                hmac secret d2 = hmac secret (tokenData id aA fC bU fp nonce) := by
            have hp1v : p1 = nonce := by simpa using hget.symm
            simp only [List.set_cons_zero, List.set_cons_succ] at hsplit
            rw [parseToken_seven hmac _ _ _ _ _ _ _ _ _ hsplit]
            refine digest_compare_cases hmac Hh secret _ _ _ ?_
            intro he
            have hl := joinPipe_inj _ _ (by
                intro q hq
                simp only [List.mem_cons, List.not_mem_nil, or_false] at hq
                rcases hq with rfl | rfl | rfl | rfl | rfl | rfl
                · exact hid
                · exact intStr_noPipe aA
                · exact intStr_noPipe fC
                · exact intStr_noPipe bU
                · exact hfp
                · exact hnp2 _ hn hp1v) hd_all (by simp) (by simp) he
            simp only [List.cons.injEq, and_true, true_and] at hl
            exact (hp1v ▸ hp12) hl.symm
          exact ⟨fun _ => hres, fun _ => hres⟩
        · -- the trailing digest field is altered
          have hp1v : p1 = hmac secret (tokenData id aA fC bU fp nonce) := by
            simpa using hget.symm
          simp only [List.set_cons_zero, List.set_cons_succ] at hsplit
          rcases List.append_eq_append_iff.mp heq2 with ⟨k, hk1, hk2⟩ | ⟨k, hk1, hk2⟩
          · -- the pipe before the digest, then the altered position inside it
            cases k with
            | nil =>
              simp only [List.nil_append, List.cons.injEq] at hk2
              exact absurd hk2.1.symm hxp
            | cons k0 kr =>
              simp only [List.cons_append, List.cons.injEq] at hk2
              obtain ⟨hk0, hkr⟩ := hk2
              rw [← hk0] at hk1
              constructor
              · intro hpre
                exfalso
                rw [hk1] at hpre
                unfold tokenData at hpre
                simp only [List.length_append, List.length_cons] at hpre
                omega
              · intro hsz
                left
                have hMnp : NoPipe (hmac secret (tokenData id aA fC bU fp nonce)) :=
                  hexDigest_noPipe _ (Hh _ _)
                have hkrnp : NoPipe kr := noPipe_append_left (hkr ▸ hMnp)
                have hsufnp : NoPipe suf :=
                  (noPipe_cons_elim (noPipe_append_right (hkr ▸ hMnp))).2
                have hm2np : NoPipe (kr ++ y :: suf) :=
                  noPipe_append hkrnp (noPipe_cons hyp hsufnp)
                have hjoin : joinPipe [id, intStr aA, intStr fC, intStr bU, fp, nonce,
                    kr ++ y :: suf] =
                    joinPipe [id, intStr aA, intStr fC, intStr bU, fp, nonce] ++ '|' ::
                      (kr ++ y :: suf) :=
                  (joinPipe_append_single [id, intStr aA, intStr fC, intStr bU, fp, nonce]
                    (kr ++ y :: suf) (by simp)).symm
                have ht2 : pre ++ y :: suf =
                    joinPipe [id, intStr aA, intStr fC, intStr bU, fp, nonce, kr ++ y :: suf] := by
                  rw [hjoin, hk1]
                  simp [List.append_assoc]
                have hsp : splitPipe (pre ++ y :: suf) =
                    [id, intStr aA, intStr fC, intStr bU, fp, nonce, kr ++ y :: suf] := by
                  rw [ht2]
                  refine splitPipe_joinPipe _ (by simp) ?_
                  intro q hq
                  simp only [List.mem_cons, List.not_mem_nil, or_false] at hq
                  rcases hq with rfl | rfl | rfl | rfl | rfl | rfl | rfl
                  · exact hid
                  · exact intStr_noPipe aA
                  · exact intStr_noPipe fC
                  · exact intStr_noPipe bU
                  · exact hfp
                  · exact hn
                  · exact hm2np
                rw [parseToken_seven hmac _ _ _ _ _ _ _ _ _ hsp]
                have h64a : utf8Len (hmac secret (tokenData id aA fC bU fp nonce)) = 64 :=
                  hexDigest_utf8Len _ (Hh _ _)
                have h64c : utf8Len (hmac secret
                    (joinPipe [id, intStr aA, intStr fC, intStr bU, fp, nonce])) = 64 :=
                  hexDigest_utf8Len _ (Hh _ _)
                have h64b : utf8Len (kr ++ y :: suf) = 64 := by
                  rw [utf8Len_append, utf8Len_cons, hsz, ← utf8Len_cons, ← utf8Len_append,
                      ← hkr, h64a]
                have hcond : hmac secret
                    (joinPipe [id, intStr aA, intStr fC, intStr bU, fp, nonce]) ≠
                      kr ++ y :: suf := by
                  intro hcontra
                  have hMM : hmac secret (tokenData id aA fC bU fp nonce) =
                      kr ++ y :: suf := hcontra
                  rw [hkr] at hMM
                  exact single_alter_ne kr suf x y hxy hMM
                rw [if_neg (by rw [h64c, h64b]; simp), if_pos hcond]
          · -- the altered position would lie in the data: impossible at index 6
            cases k with
            | nil =>
              simp only [List.nil_append, List.cons.injEq] at hk2
              exact absurd hk2.1 hxp
            | cons k0 kr =>
              simp only [List.cons_append, List.cons.injEq] at hk2
              obtain ⟨hk0, hkr⟩ := hk2
              have ht2 : pre ++ y :: suf =
                  (pre ++ y :: kr) ++ '|' :: hmac secret (tokenData id aA fC bU fp nonce) := by
                rw [hkr]
                simp [List.append_assoc]
              have hlast1 : (splitPipe (pre ++ y :: suf)).getLast? =
                  some (hmac secret (tokenData id aA fC bU fp nonce)) := by
                rw [ht2]
                exact splitPipe_last_sep _ _ (hexDigest_noPipe _ (Hh _ _))
              have hlast2 : (splitPipe (pre ++ y :: suf)).getLast? = some p2 := by
                rw [hsplit]
                rfl
              rw [hlast1] at hlast2
              injection hlast2 with h3
              exact absurd (hp1v.trans h3) hp12

/-- C1, counterexample to the claim as stated: altering the single last
character of a freshly made valid token (same length, the altered string
keeps every other character) to a two-byte character makes parseToken throw
(crypto.timingSafeEqual raises on buffers of different byte lengths) instead
of returning absent. -/
theorem c1_alter_throws_counterexample :
    ((makeToken hmacModel "ab".data (some 1005) (some 0) (some 0) "ff".data "cd".data
        "k1".data).dropLast ++ [Char.ofNat 233] ≠
      makeToken hmacModel "ab".data (some 1005) (some 0) (some 0) "ff".data "cd".data "k1".data) ∧
    ((makeToken hmacModel "ab".data (some 1005) (some 0) (some 0) "ff".data "cd".data
        "k1".data).dropLast ++ [Char.ofNat 233]).length =
      (makeToken hmacModel "ab".data (some 1005) (some 0) (some 0) "ff".data "cd".data
        "k1".data).length ∧
    parseToken hmacModel
      ((makeToken hmacModel "ab".data (some 1005) (some 0) (some 0) "ff".data "cd".data
          "k1".data).dropLast ++ [Char.ofNat 233]) "k1".data = .thrown := by
  refine ⟨by decide, by decide, by decide⟩

/-- Witness for c1_token_codec_amended: every hypothesis holds and the
conclusion follows at a concrete tuple and pair of keys. -/
theorem c1_token_codec_amended_witness :
    (∀ k d, HexDigest (hmacModel k d)) ∧
    NoPipe "ab".data ∧ NoPipe "ff".data ∧ NoPipe "cd".data ∧
    (parseToken hmacModel (makeToken hmacModel "ab".data (some 1005) (some 0) (some 0)
        "ff".data "cd".data "k1".data) "k1".data =
      .ok (some ⟨"ab".data, some 1005, some 0, some 0, "ff".data, "cd".data⟩) ∧
     (hmacModel "k2".data (tokenData "ab".data 1005 0 0 "ff".data "cd".data) ≠
        hmacModel "k1".data (tokenData "ab".data 1005 0 0 "ff".data "cd".data) →
       parseToken hmacModel (makeToken hmacModel "ab".data (some 1005) (some 0) (some 0)
          "ff".data "cd".data "k1".data) "k2".data = .ok none) ∧
     (∀ pre suf : Str, ∀ x y : Char, x ≠ y →
       makeToken hmacModel "ab".data (some 1005) (some 0) (some 0) "ff".data "cd".data
           "k1".data = pre ++ x :: suf →
       ((pre.length ≤ (tokenData "ab".data 1005 0 0 "ff".data "cd".data).length →
         parseToken hmacModel (pre ++ y :: suf) "k1".data = .ok none ∨
           ∃ d2, d2 ≠ tokenData "ab".data 1005 0 0 "ff".data "cd".data ∧
             hmacModel "k1".data d2 = hmacModel "k1".data
               (tokenData "ab".data 1005 0 0 "ff".data "cd".data)) ∧
        (y.utf8Size = x.utf8Size →
         parseToken hmacModel (pre ++ y :: suf) "k1".data = .ok none ∨
           ∃ d2, d2 ≠ tokenData "ab".data 1005 0 0 "ff".data "cd".data ∧
             hmacModel "k1".data d2 = hmacModel "k1".data
               (tokenData "ab".data 1005 0 0 "ff".data "cd".data))))) :=
  ⟨hmacModel_hexDigest, by decide, by decide, by decide,
   c1_token_codec_amended hmacModel hmacModel_hexDigest "ab".data 1005 0 0 "ff".data "cd".data
     "k1".data "k2".data (by decide) (by decide) (by decide)⟩

/-- C2: the claim says parseToken never raises; but on a seven-field input
whose trailing field does not have the digest's byte length (here one byte
against 64), crypto.timingSafeEqual throws a RangeError, so parseToken
raises instead of returning null.  The code contradicts the spec's explicit
"returns absent, not an exception". -/
theorem c2_parse_token_throws :
    parseToken hmacModel "a|b|c|d|e|f|g".data "k".data = .thrown := by decide

/-! ## Reaching the token stage of the gateway -/

theorem zantGateway_token_stage (hmac : Str → Str → Str) (sha : Str → Str) (opts : Opts)
    (secret : Str) (req : Req) (nowMs : Nat) (e : Fresh) (fpS : FpStore) (banS : BanStore)
    (h1 : pathBypassed req.path = false)
    (h2 : isAbsUrl (origOf req) = false)
    (h3 : (isGloballyBanned banS (generateFingerprint sha req.headers) (nowMs / 1000)).1 = none)
    (h4 : (checkRateLimit opts fpS (generateFingerprint sha req.headers) nowMs).1 = true)
    (h5 : detectSuspiciousPattern req.headers = []) :
    zantGateway hmac sha opts secret req nowMs e fpS banS =
      zantGatewayToken hmac opts secret req (origOf req) (generateFingerprint sha req.headers)
        (nowMs / 1000) e
        (checkRateLimit opts fpS (generateFingerprint sha req.headers) nowMs).2
        (isGloballyBanned banS (generateFingerprint sha req.headers) (nowMs / 1000)).2 := by
  unfold zantGateway
  simp only [h1, Bool.false_eq_true, if_false, h2, h3, h4, h5, Bool.true_eq_false, if_true]

/-- C6: a request whose queue token decodes but embeds a different
fingerprint than the one freshly computed from the headers gets a brand-new
first-visit token (fresh id and nonce, allowAt = now + waitSeconds,
failCount = 0, banUntil = 0) bound to the new fingerprint, the access cookie
cleared, and the first-visit Queue page. -/
theorem c6_fingerprint_mismatch (hmac : Str → Str → Str) (sha : Str → Str) (opts : Opts)
    (secret : Str) (req : Req) (nowMs : Nat) (e : Fresh) (fpS : FpStore) (banS : BanStore)
    (st : QTok)
    (h1 : pathBypassed req.path = false)
    (h2 : isAbsUrl (origOf req) = false)
    (h3 : (isGloballyBanned banS (generateFingerprint sha req.headers) (nowMs / 1000)).1 = none)
    (h4 : (checkRateLimit opts fpS (generateFingerprint sha req.headers) nowMs).1 = true)
    (h5 : detectSuspiciousPattern req.headers = [])
    (hq : parseQueue hmac secret req = .ok (some st))
    (hne : st.fingerprint ≠ generateFingerprint sha req.headers) :
    zantGateway hmac sha opts secret req nowMs e fpS banS =
      .ok ⟨.sendA (.queuePG (opts.waitSeconds : Int) (origOf req) .first),
           some (makeToken hmac e.genA (nInt (nowMs / 1000 + opts.waitSeconds)) (nInt 0) (nInt 0)
               (generateFingerprint sha req.headers) e.genB secret,
             nowMs / 1000 + opts.maxLifetime),
           none, true,
           (checkRateLimit opts fpS (generateFingerprint sha req.headers) nowMs).2,
           (isGloballyBanned banS (generateFingerprint sha req.headers) (nowMs / 1000)).2⟩ := by
  rw [zantGateway_token_stage hmac sha opts secret req nowMs e fpS banS h1 h2 h3 h4 h5]
  unfold zantGatewayToken
  rw [hq]
  simp only [hne, ne_eq, not_false_eq_true, if_true]

/-- C7: for a valid fingerprint-matching token that is unbanned and whose
wait has elapsed, the gateway sets an access cookie (opaque fresh id, expiry
now + maxLifetime) exactly when none is present, re-arms the queue cookie
with a fresh nonce, allowAt = now + waitSeconds, failCount = 0,
banUntil = 0, and signals continuation to the hosting application. -/
theorem c7_wait_elapsed_grants (hmac : Str → Str → Str) (sha : Str → Str) (opts : Opts)
    (secret : Str) (req : Req) (nowMs : Nat) (e : Fresh) (fpS : FpStore) (banS : BanStore)
    (st : QTok)
    (h1 : pathBypassed req.path = false)
    (h2 : isAbsUrl (origOf req) = false)
    (h3 : (isGloballyBanned banS (generateFingerprint sha req.headers) (nowMs / 1000)).1 = none)
    (h4 : (checkRateLimit opts fpS (generateFingerprint sha req.headers) nowMs).1 = true)
    (h5 : detectSuspiciousPattern req.headers = [])
    (hq : parseQueue hmac secret req = .ok (some st))
    (hfpm : st.fingerprint = generateFingerprint sha req.headers)
    (hban : jsGtNat st.ban_until (nowMs / 1000) = false)
    (hwait : jsPos (jsSub st.allow_at (nowMs / 1000)) = false) :
    zantGateway hmac sha opts secret req nowMs e fpS banS =
      .ok ⟨.nextA,
           some (makeToken hmac st.id (nInt (nowMs / 1000 + opts.waitSeconds)) (nInt 0) (nInt 0)
               (generateFingerprint sha req.headers) e.genB secret,
             nowMs / 1000 + opts.maxLifetime),
           (if (req.accessCookie.getD []) ≠ [] then none
            else some (e.genA, nowMs / 1000 + opts.maxLifetime)),
           false,
           (checkRateLimit opts fpS (generateFingerprint sha req.headers) nowMs).2,
           (isGloballyBanned banS (generateFingerprint sha req.headers) (nowMs / 1000)).2⟩ := by
  rw [zantGateway_token_stage hmac sha opts secret req nowMs e fpS banS h1 h2 h3 h4 h5]
  unfold zantGatewayToken
  rw [hq]
  simp only [hfpm, ne_eq, not_true_eq_false, if_false, hban, Bool.false_eq_true, hwait]

/-- C3: on a premature retry of a valid, fingerprint-matching, unbanned
token (allowAt still in the future) whose failCount is a number below
maxFails, the reissued cookie carries failCount + 1 - except that exactly
when the incremented count reaches maxFails the ban fires instead: the
cookie carries failCount 0, banUntil = now + banSeconds and
allowAt = banUntil + waitSeconds, the access cookie is cleared, a global
ban is registered, and Blocked("too_many_requests", banSeconds) is
rendered.  At any smaller incremented count no ban action happens and the
retry Queue page is rendered. -/
theorem c3_premature_retry (hmac : Str → Str → Str) (sha : Str → Str) (opts : Opts)
    (secret : Str) (req : Req) (nowMs : Nat) (e : Fresh) (fpS : FpStore) (banS : BanStore)
    (st : QTok) (aA fc : Int)
    (h1 : pathBypassed req.path = false)
    (h2 : isAbsUrl (origOf req) = false)
    (h3 : (isGloballyBanned banS (generateFingerprint sha req.headers) (nowMs / 1000)).1 = none)
    (h4 : (checkRateLimit opts fpS (generateFingerprint sha req.headers) nowMs).1 = true)
    (h5 : detectSuspiciousPattern req.headers = [])
    (hq : parseQueue hmac secret req = .ok (some st))
    (hfpm : st.fingerprint = generateFingerprint sha req.headers)
    (hban : jsGtNat st.ban_until (nowMs / 1000) = false)
    (haA : st.allow_at = some aA)
    (hprem : ((nowMs / 1000 : Nat) : Int) < aA)
    (hfc : st.fail_count = some fc)
    (hlt : fc < (opts.maxFails : Int)) :
    (fc + 1 = (opts.maxFails : Int) ∨ fc + 1 < (opts.maxFails : Int)) ∧
    (fc + 1 = (opts.maxFails : Int) →
      zantGateway hmac sha opts secret req nowMs e fpS banS =
        .ok ⟨.sendA (.blockedPG (opts.banSeconds : Int) ("too_many_requests".data)),
             some (makeToken hmac st.id (nInt (nowMs / 1000 + opts.banSeconds + opts.waitSeconds))
                 (nInt 0) (nInt (nowMs / 1000 + opts.banSeconds))
                 (generateFingerprint sha req.headers) st.nonce secret,
               nowMs / 1000 + opts.maxLifetime),
             none, true,
             (checkRateLimit opts fpS (generateFingerprint sha req.headers) nowMs).2,
             addGlobalBan
               (isGloballyBanned banS (generateFingerprint sha req.headers) (nowMs / 1000)).2
               (generateFingerprint sha req.headers) opts.banSeconds ("too_many_requests".data)
               (nowMs / 1000)⟩) ∧
    (fc + 1 < (opts.maxFails : Int) →
      zantGateway hmac sha opts secret req nowMs e fpS banS =
        .ok ⟨.sendA (.queuePG (max (aA - ((nowMs / 1000 : Nat) : Int)) 1) (origOf req) .retry),
             some (makeToken hmac st.id (some aA) (some (fc + 1)) (nInt 0)
                 (generateFingerprint sha req.headers) st.nonce secret,
               nowMs / 1000 + opts.maxLifetime),
             none, false,
             (checkRateLimit opts fpS (generateFingerprint sha req.headers) nowMs).2,
             (isGloballyBanned banS (generateFingerprint sha req.headers) (nowMs / 1000)).2⟩) := by
  have hstage := zantGateway_token_stage hmac sha opts secret req nowMs e fpS banS h1 h2 h3 h4 h5
  have hwait : jsPos (some (aA - ((nowMs / 1000 : Nat) : Int))) = true := by
    simp only [jsPos, decide_eq_true_eq]
    omega
  refine ⟨by omega, ?_, ?_⟩
  · intro hreach
    have hge : jsGeNat (some (fc + 1)) opts.maxFails = true := by
      simp only [jsGeNat, decide_eq_true_eq]
      omega
    rw [hstage]
    unfold zantGatewayToken
    rw [hq]
    simp only [hfpm, ne_eq, not_true_eq_false, if_false, hban, Bool.false_eq_true, haA, hfc,
      jsSub, jsAdd1, Option.map_some', hwait, if_true, hge]
  · intro hlt2
    have hge : jsGeNat (some (fc + 1)) opts.maxFails = false := by
      simp only [jsGeNat, decide_eq_false_iff_not, not_le]
      omega
    rw [hstage]
    unfold zantGatewayToken
    rw [hq]
    simp only [hfpm, ne_eq, not_true_eq_false, if_false, hban, Bool.false_eq_true, haA, hfc,
      jsSub, jsAdd1, Option.map_some', Option.getD_some, hwait, if_true, hge]

/-- C5: with the rate limit at maxRequests = 20 per windowMs = 60000ms, a
request from a fingerprint whose pruned in-window timestamp list already
holds 20 entries is rejected: the limiter refuses, a global ban with reason
rate_limit and duration banSeconds is registered, and
Blocked("rate_limit", banSeconds) is rendered.  Entries outside the window
never survive the pruning filter and so are not counted. -/
theorem c5_rate_limit_reject (hmac : Str → Str → Str) (sha : Str → Str) (opts : Opts)
    (secret : Str) (req : Req) (nowMs : Nat) (e : Fresh) (fpS : FpStore) (banS : BanStore)
    (fpd : FpData)
    (h1 : pathBypassed req.path = false)
    (h2 : isAbsUrl (origOf req) = false)
    (h3 : (isGloballyBanned banS (generateFingerprint sha req.headers) (nowMs / 1000)).1 = none)
    (hmax : opts.maxRequests = 20)
    (hwin : opts.windowMs = 60000)
    (hfpd : fpS (generateFingerprint sha req.headers) = some fpd)
    (hcnt : (fpd.requests.filter
        (fun (ts : Nat) => (nowMs : Int) - (ts : Int) < (opts.windowMs : Int))).length = 20) :
    (checkRateLimit opts fpS (generateFingerprint sha req.headers) nowMs).1 = false ∧
    (∀ ts ∈ fpd.requests, ¬((nowMs : Int) - (ts : Int) < (opts.windowMs : Int)) →
      ts ∉ fpd.requests.filter (fun (ts : Nat) => (nowMs : Int) - (ts : Int) < (opts.windowMs : Int))) ∧
    zantGateway hmac sha opts secret req nowMs e fpS banS =
      .ok ⟨.sendA (.blockedPG (opts.banSeconds : Int) ("rate_limit".data)), none, none, false,
           insertFp fpS (generateFingerprint sha req.headers)
             ⟨fpd.requests.filter (fun (ts : Nat) => (nowMs : Int) - (ts : Int) < (opts.windowMs : Int)),
              fpd.suspiciousCount⟩,
           addGlobalBan
             (isGloballyBanned banS (generateFingerprint sha req.headers) (nowMs / 1000)).2
             (generateFingerprint sha req.headers) opts.banSeconds ("rate_limit".data)
             (nowMs / 1000)⟩ := by
  have hrc : checkRateLimit opts fpS (generateFingerprint sha req.headers) nowMs =
      (false, insertFp fpS (generateFingerprint sha req.headers)
        ⟨fpd.requests.filter (fun (ts : Nat) => (nowMs : Int) - (ts : Int) < (opts.windowMs : Int)),
         fpd.suspiciousCount⟩) := by
    unfold checkRateLimit
    rw [hfpd]
    simp only [Option.getD_some, Option.isSome_some, if_true, hmax, hcnt, le_refl]
  refine ⟨by rw [hrc], ?_, ?_⟩
  · intro ts hts hout hmem
    have hmem2 := List.of_mem_filter hmem
    simp only [decide_eq_true_eq] at hmem2
    exact hout hmem2
  · unfold zantGateway
    simp only [h1, Bool.false_eq_true, if_false, h2, h3, hrc, if_true]

/-- C8: when the headers yield a non-empty suspicion tag set (and the
request got past the ban and rate-limit steps), the fingerprint's suspicion
counter is incremented by one; if the incremented counter reaches the
threshold a global ban of 2 x banSeconds with reason suspicious_pattern is
registered and Blocked is rendered with that reason; below the threshold
the incremented counter is persisted and evaluation continues with the
token steps. -/
theorem c8_suspicion_counter (hmac : Str → Str → Str) (sha : Str → Str) (opts : Opts)
    (secret : Str) (req : Req) (nowMs : Nat) (e : Fresh) (fpS : FpStore) (banS : BanStore)
    (h1 : pathBypassed req.path = false)
    (h2 : isAbsUrl (origOf req) = false)
    (h3 : (isGloballyBanned banS (generateFingerprint sha req.headers) (nowMs / 1000)).1 = none)
    (h4 : (checkRateLimit opts fpS (generateFingerprint sha req.headers) nowMs).1 = true)
    (htags : detectSuspiciousPattern req.headers ≠ []) :
    (opts.suspiciousPatternThreshold ≤
        (((checkRateLimit opts fpS (generateFingerprint sha req.headers) nowMs).2
            (generateFingerprint sha req.headers)).getD ⟨[], 0⟩).suspiciousCount + 1 →
      zantGateway hmac sha opts secret req nowMs e fpS banS =
        .ok ⟨.sendA (.blockedPG ((2 * opts.banSeconds : Nat) : Int) ("suspicious_pattern".data)),
             none, none, false,
             (if ((checkRateLimit opts fpS (generateFingerprint sha req.headers) nowMs).2
                  (generateFingerprint sha req.headers)).isSome then
                insertFp (checkRateLimit opts fpS (generateFingerprint sha req.headers) nowMs).2
                  (generateFingerprint sha req.headers)
                  ⟨(((checkRateLimit opts fpS (generateFingerprint sha req.headers) nowMs).2
                      (generateFingerprint sha req.headers)).getD ⟨[], 0⟩).requests,
                   (((checkRateLimit opts fpS (generateFingerprint sha req.headers) nowMs).2
                      (generateFingerprint sha req.headers)).getD ⟨[], 0⟩).suspiciousCount + 1⟩
              else (checkRateLimit opts fpS (generateFingerprint sha req.headers) nowMs).2),
             addGlobalBan
               (isGloballyBanned banS (generateFingerprint sha req.headers) (nowMs / 1000)).2
               (generateFingerprint sha req.headers) (2 * opts.banSeconds)
               ("suspicious_pattern".data) (nowMs / 1000)⟩) ∧
    ((((checkRateLimit opts fpS (generateFingerprint sha req.headers) nowMs).2
          (generateFingerprint sha req.headers)).getD ⟨[], 0⟩).suspiciousCount + 1 <
        opts.suspiciousPatternThreshold →
      zantGateway hmac sha opts secret req nowMs e fpS banS =
        zantGatewayToken hmac opts secret req (origOf req) (generateFingerprint sha req.headers)
          (nowMs / 1000) e
          (insertFp (checkRateLimit opts fpS (generateFingerprint sha req.headers) nowMs).2
            (generateFingerprint sha req.headers)
            ⟨(((checkRateLimit opts fpS (generateFingerprint sha req.headers) nowMs).2
                (generateFingerprint sha req.headers)).getD ⟨[], 0⟩).requests,
             (((checkRateLimit opts fpS (generateFingerprint sha req.headers) nowMs).2
                (generateFingerprint sha req.headers)).getD ⟨[], 0⟩).suspiciousCount + 1⟩)
          (isGloballyBanned banS (generateFingerprint sha req.headers) (nowMs / 1000)).2 ∧
      ((insertFp (checkRateLimit opts fpS (generateFingerprint sha req.headers) nowMs).2
          (generateFingerprint sha req.headers)
          ⟨(((checkRateLimit opts fpS (generateFingerprint sha req.headers) nowMs).2
              (generateFingerprint sha req.headers)).getD ⟨[], 0⟩).requests,
           (((checkRateLimit opts fpS (generateFingerprint sha req.headers) nowMs).2
              (generateFingerprint sha req.headers)).getD ⟨[], 0⟩).suspiciousCount + 1⟩)
          (generateFingerprint sha req.headers)).getD ⟨[], 0⟩ =
        ⟨(((checkRateLimit opts fpS (generateFingerprint sha req.headers) nowMs).2
            (generateFingerprint sha req.headers)).getD ⟨[], 0⟩).requests,
         (((checkRateLimit opts fpS (generateFingerprint sha req.headers) nowMs).2
            (generateFingerprint sha req.headers)).getD ⟨[], 0⟩).suspiciousCount + 1⟩) := by
  constructor
  · intro hth
    unfold zantGateway
    simp only [h1, Bool.false_eq_true, if_false, h2, h3, h4, Bool.true_eq_false, htags,
      ne_eq, if_true, hth]
  · intro hth
    have hth2 : ¬ (opts.suspiciousPatternThreshold ≤
        (((checkRateLimit opts fpS (generateFingerprint sha req.headers) nowMs).2
            (generateFingerprint sha req.headers)).getD ⟨[], 0⟩).suspiciousCount + 1) := by omega
    constructor
    · unfold zantGateway
      simp only [h1, Bool.false_eq_true, if_false, h2, h3, h4, Bool.true_eq_false, htags,
        ne_eq, if_true, hth2]
    · simp [insertFp]

/-- C9: the gateway's decision and every value it writes are identical
across two runs differing only in the configured proof-of-work difficulty:
powDifficulty is read by no decision path. -/
theorem c9_pow_difficulty_unused (hmac : Str → Str → Str) (sha : Str → Str) (opts : Opts)
    (d1 d2 : Nat) (secret : Str) (req : Req) (nowMs : Nat) (e : Fresh)
    (fpS : FpStore) (banS : BanStore) :
    zantGateway hmac sha { opts with powDifficulty := d1 } secret req nowMs e fpS banS =
      zantGateway hmac sha { opts with powDifficulty := d2 } secret req nowMs e fpS banS := by
  cases opts
  rfl

/-- every queue cookie the token stage writes carries a makeToken value
whose failCount is a number strictly below maxFails and whose banUntil is 0
except in the ban update, where banUntil = now + banSeconds and
allowAt = banUntil + waitSeconds. -/
theorem zantGatewayToken_queueSet_inv (hmac : Str → Str → Str) (opts : Opts) (secret : Str)
    (req : Req) (orig fp : Str) (now : Nat) (e : Fresh) (fpS : FpStore) (banS : BanStore)
    (hpos : 0 < opts.maxFails)
    (hfc : ∀ st : QTok, parseQueue hmac secret req = .ok (some st) → st.fail_count.isSome)
    (out : StepOut) (v : Str) (exp : Nat)
    (hout : zantGatewayToken hmac opts secret req orig fp now e fpS banS = .ok out)
    (hset : out.queueSet = some (v, exp)) :
    ∃ (id : Str) (aAj fCj bUj : JSNum) (fpx nce : Str),
      v = makeToken hmac id aAj fCj bUj fpx nce secret ∧
      (∃ fC : Int, fCj = some fC ∧ fC < (opts.maxFails : Int)) ∧
      (bUj = nInt 0 ∨
        (bUj = nInt (now + opts.banSeconds) ∧
         aAj = nInt (now + opts.banSeconds + opts.waitSeconds))) := by
  unfold zantGatewayToken at hout
  split at hout
  · exact absurd hout (by simp)
  · -- absent or invalid token: first visit issue
    injection hout with h
    subst h
    simp only [Option.some.injEq, Prod.mk.injEq] at hset
    refine ⟨e.genA, nInt (now + opts.waitSeconds), nInt 0, nInt 0, fp, e.genB,
      hset.1.symm, ⟨((0 : Nat) : Int), rfl, by exact_mod_cast hpos⟩, Or.inl rfl⟩
  · next st heq =>
    split at hout
    · -- fingerprint mismatch reissue
      injection hout with h
      subst h
      simp only [Option.some.injEq, Prod.mk.injEq] at hset
      refine ⟨e.genA, nInt (now + opts.waitSeconds), nInt 0, nInt 0, fp, e.genB,
        hset.1.symm, ⟨((0 : Nat) : Int), rfl, by exact_mod_cast hpos⟩, Or.inl rfl⟩
    · split at hout
      · -- banned-in-token: no queue cookie write
        injection hout with h
        subst h
        simp at hset
      · dsimp only at hout
        split at hout
        · -- premature retry
          split at hout
          · -- ban update
            next hge =>
            injection hout with h
            subst h
            simp only [Option.some.injEq, Prod.mk.injEq] at hset
            refine ⟨st.id, nInt (now + opts.banSeconds + opts.waitSeconds), nInt 0,
              nInt (now + opts.banSeconds), fp, st.nonce,
              hset.1.symm, ⟨((0 : Nat) : Int), rfl, by exact_mod_cast hpos⟩, Or.inr ⟨rfl, rfl⟩⟩
          · -- plain increment reissue
            next hge =>
            injection hout with h
            subst h
            simp only [Option.some.injEq, Prod.mk.injEq] at hset
            obtain ⟨fc, hfcv⟩ := Option.isSome_iff_exists.mp (hfc st heq)
            rw [hfcv] at hge
            simp only [jsAdd1, Option.map_some', jsGeNat, decide_eq_true_eq] at hge
            refine ⟨st.id, st.allow_at, jsAdd1 st.fail_count, nInt 0, fp, st.nonce,
              hset.1.symm, ⟨fc + 1, by rw [hfcv]; rfl, by omega⟩, Or.inl rfl⟩
        · -- wait has elapsed: re-arm
          injection hout with h
          subst h
          simp only [Option.some.injEq, Prod.mk.injEq] at hset
          refine ⟨st.id, nInt (now + opts.waitSeconds), nInt 0, nInt 0, fp, e.genB,
            hset.1.symm, ⟨((0 : Nat) : Int), rfl, by exact_mod_cast hpos⟩, Or.inl rfl⟩

/-- C10: every queue cookie the gateway itself sets encodes a failCount
that is a number strictly less than maxFails, and encodes a nonzero
banUntil only in the ban update, where banUntil = now + banSeconds and
allowAt = banUntil + waitSeconds; every other issued token has banUntil 0.
The presented token's failCount is assumed numeric, which holds of every
token the gateway itself encoded. -/
theorem c10_issued_token_invariant (hmac : Str → Str → Str) (sha : Str → Str) (opts : Opts)
    (secret : Str) (req : Req) (nowMs : Nat) (e : Fresh) (fpS : FpStore) (banS : BanStore)
    (hpos : 0 < opts.maxFails)
    (hfc : ∀ st : QTok, parseQueue hmac secret req = .ok (some st) → st.fail_count.isSome)
    (out : StepOut) (v : Str) (exp : Nat)
    (hout : zantGateway hmac sha opts secret req nowMs e fpS banS = .ok out)
    (hset : out.queueSet = some (v, exp)) :
    ∃ (id : Str) (aAj fCj bUj : JSNum) (fpx nce : Str),
      v = makeToken hmac id aAj fCj bUj fpx nce secret ∧
      (∃ fC : Int, fCj = some fC ∧ fC < (opts.maxFails : Int)) ∧
      (bUj = nInt 0 ∨
        (bUj = nInt (nowMs / 1000 + opts.banSeconds) ∧
         aAj = nInt (nowMs / 1000 + opts.banSeconds + opts.waitSeconds))) := by
  unfold zantGateway at hout
  split at hout
  · injection hout with h; subst h; simp at hset
  · dsimp only at hout
    split at hout
    · injection hout with h; subst h; simp at hset
    · split at hout
      · injection hout with h; subst h; simp at hset
      · split at hout
        · injection hout with h; subst h; simp at hset
        · split at hout
          · exact zantGatewayToken_queueSet_inv hmac opts secret req _ _ _ e _ _
              hpos hfc out v exp hout hset
          · split at hout
            · injection hout with h; subst h; simp at hset
            · exact zantGatewayToken_queueSet_inv hmac opts secret req _ _ _ e _ _
                hpos hfc out v exp hout hset

/-! ## The maxFails = 3 premature-retry scenario, run concretely -/

/-- Headers of an ordinary browser: long user agent without any deny-list
signature, Accept present - so no suspicion tags. -/
def c4Headers : Headers :=
  ⟨some "Mozilla/5.0 (X11; Linux x86_64) Gecko".data, some "en-US".data,
   some "gzip".data, some "text/html".data⟩

/-- The first request of the scenario: no cookies. -/
def c4ReqNoCookie : Req := ⟨"/page".data, "/page".data, none, none, c4Headers⟩

/-- A follow-up request presenting a queue token. -/
def c4Req (tok : Str) : Req := ⟨"/page".data, "/page".data, some tok, none, c4Headers⟩

def c4Secret : Str := "s3cr3t".data

def c4Fp : Str := generateFingerprint shaModel c4Headers

def emptyFpStore : FpStore := fun _ => none

def emptyBanStore : BanStore := fun _ => none

/-- Extract the decided output (the scenario never throws). -/
def getOut (r : JsResult StepOut) : StepOut :=
  match r with
  | .ok o => o
  | .thrown => ⟨.nextA, none, none, false, fun _ => none, fun _ => none⟩

/-- The queue cookie value a response set. -/
def outTok (r : JsResult StepOut) : Str := ((getOut r).queueSet.getD ([], 0)).1

/-- First visit at now = 1000s: fresh token, allowAt = 1005. -/
def c4Out0 : JsResult StepOut :=
  zantGateway hmacModel shaModel defaultOpts c4Secret c4ReqNoCookie 1000000
    ⟨"id0".data, "n0".data⟩ emptyFpStore emptyBanStore

/-- 1st premature retry (still at now = 1000s, before allowAt = 1005). -/
def c4Out1 : JsResult StepOut :=
  zantGateway hmacModel shaModel defaultOpts c4Secret (c4Req (outTok c4Out0)) 1000100
    ⟨"id1".data, "n1".data⟩ (getOut c4Out0).fpS (getOut c4Out0).banS

/-- 2nd premature retry. -/
def c4Out2 : JsResult StepOut :=
  zantGateway hmacModel shaModel defaultOpts c4Secret (c4Req (outTok c4Out1)) 1000200
    ⟨"id2".data, "n2".data⟩ (getOut c4Out1).fpS (getOut c4Out1).banS

/-- 3rd premature retry. -/
def c4Out3 : JsResult StepOut :=
  zantGateway hmacModel shaModel defaultOpts c4Secret (c4Req (outTok c4Out2)) 1000300
    ⟨"id3".data, "n3".data⟩ (getOut c4Out2).fpS (getOut c4Out2).banS

/-- C4, counterexample to the claim as stated: with maxFails = 3, starting
from a fresh failCount = 0 token, the first two premature retries render the
retry Queue page, but already the 3rd premature request - not the 4th -
renders Blocked("too_many_requests", banSeconds) and registers the global
ban. -/
theorem c4_counterexample :
    (getOut c4Out1).act = .sendA (.queuePG 5 ("/page".data) .retry) ∧
    (getOut c4Out2).act = .sendA (.queuePG 5 ("/page".data) .retry) ∧
    (getOut c4Out3).act ≠ .sendA (.queuePG 5 ("/page".data) .retry) ∧
    (getOut c4Out3).act = .sendA (.blockedPG 300 ("too_many_requests".data)) ∧
    ((getOut c4Out3).banS c4Fp).isSome = true := by
  refine ⟨by decide, by decide, by decide, by decide, by decide⟩

/-- C4 (amended): with maxFails = 3 and a fresh failCount = 0 token, after
2 premature retries (failCount 1 then 2), the 3rd premature request sets
banUntil = now + banSeconds (1300 = 1000 + 300) and
allowAt = banUntil + waitSeconds in the reissued token with failCount reset
to 0, clears the access cookie, registers a global ban for the fingerprint,
and renders Blocked("too_many_requests", banSeconds). -/
theorem c4_third_premature_bans :
    (getOut c4Out0).act = .sendA (.queuePG 5 ("/page".data) .first) ∧
    outTok c4Out0 =
      makeToken hmacModel "id0".data (nInt 1005) (nInt 0) (nInt 0) c4Fp "n0".data c4Secret ∧
    (getOut c4Out1).act = .sendA (.queuePG 5 ("/page".data) .retry) ∧
    outTok c4Out1 =
      makeToken hmacModel "id0".data (some 1005) (some 1) (nInt 0) c4Fp "n0".data c4Secret ∧
    (getOut c4Out2).act = .sendA (.queuePG 5 ("/page".data) .retry) ∧
    outTok c4Out2 =
      makeToken hmacModel "id0".data (some 1005) (some 2) (nInt 0) c4Fp "n0".data c4Secret ∧
    (getOut c4Out3).act = .sendA (.blockedPG 300 ("too_many_requests".data)) ∧
    outTok c4Out3 =
      makeToken hmacModel "id0".data (nInt 1305) (nInt 0) (nInt 1300) c4Fp "n0".data c4Secret ∧
    (getOut c4Out3).accessCleared = true ∧
    (getOut c4Out3).banS c4Fp = some ⟨1300, "too_many_requests".data, 1000⟩ := by
  refine ⟨by decide, by decide, by decide, by decide, by decide, by decide, by decide,
    by decide, by decide, by decide⟩

/-! ## Witnesses for the gateway theorems -/

/-- A valid token bound to a foreign fingerprint, for the mismatch witness. -/
def w6Tok : Str :=
  makeToken hmacModel "i6".data (some 2000) (some 0) (some 0) "otherfp".data "n6".data c4Secret

/-- Witness for c6_fingerprint_mismatch at a concrete request. -/
theorem c6_fingerprint_mismatch_witness :
    pathBypassed ("/page".data) = false ∧
    isAbsUrl (origOf (c4Req w6Tok)) = false ∧
    (isGloballyBanned emptyBanStore (generateFingerprint shaModel c4Headers) (1000000 / 1000)).1
      = none ∧
    (checkRateLimit defaultOpts emptyFpStore (generateFingerprint shaModel c4Headers) 1000000).1
      = true ∧
    detectSuspiciousPattern c4Headers = [] ∧
    parseQueue hmacModel c4Secret (c4Req w6Tok) =
      .ok (some ⟨"i6".data, some 2000, some 0, some 0, "otherfp".data, "n6".data⟩) ∧
    ("otherfp".data ≠ generateFingerprint shaModel c4Headers) ∧
    zantGateway hmacModel shaModel defaultOpts c4Secret (c4Req w6Tok) 1000000
        ⟨"a6".data, "b6".data⟩ emptyFpStore emptyBanStore =
      .ok ⟨.sendA (.queuePG ((defaultOpts.waitSeconds : Nat) : Int) (origOf (c4Req w6Tok)) .first),
           some (makeToken hmacModel "a6".data (nInt (1000000 / 1000 + defaultOpts.waitSeconds))
               (nInt 0) (nInt 0) (generateFingerprint shaModel c4Headers) "b6".data c4Secret,
             1000000 / 1000 + defaultOpts.maxLifetime),
           none, true,
           (checkRateLimit defaultOpts emptyFpStore (generateFingerprint shaModel c4Headers)
             1000000).2,
           (isGloballyBanned emptyBanStore (generateFingerprint shaModel c4Headers)
             (1000000 / 1000)).2⟩ :=
  ⟨by decide, by decide, by decide, by decide, by decide, by decide, by decide,
   c6_fingerprint_mismatch hmacModel shaModel defaultOpts c4Secret (c4Req w6Tok) 1000000
     ⟨"a6".data, "b6".data⟩ emptyFpStore emptyBanStore
     ⟨"i6".data, some 2000, some 0, some 0, "otherfp".data, "n6".data⟩
     (by decide) (by decide) (by decide) (by decide) (by decide) (by decide) (by decide)⟩

/-- A valid fingerprint-matching token whose wait has elapsed. -/
def w7Tok : Str :=
  makeToken hmacModel "i7".data (some 900) (some 0) (some 0) c4Fp "n7".data c4Secret

/-- Witness for c7_wait_elapsed_grants at a concrete request. -/
theorem c7_wait_elapsed_grants_witness :
    pathBypassed ("/page".data) = false ∧
    isAbsUrl (origOf (c4Req w7Tok)) = false ∧
    (isGloballyBanned emptyBanStore (generateFingerprint shaModel c4Headers) (1000000 / 1000)).1
      = none ∧
    (checkRateLimit defaultOpts emptyFpStore (generateFingerprint shaModel c4Headers) 1000000).1
      = true ∧
    detectSuspiciousPattern c4Headers = [] ∧
    parseQueue hmacModel c4Secret (c4Req w7Tok) =
      .ok (some ⟨"i7".data, some 900, some 0, some 0, c4Fp, "n7".data⟩) ∧
    c4Fp = generateFingerprint shaModel c4Headers ∧
    jsGtNat (some 0) (1000000 / 1000) = false ∧
    jsPos (jsSub (some 900) (1000000 / 1000)) = false ∧
    zantGateway hmacModel shaModel defaultOpts c4Secret (c4Req w7Tok) 1000000
        ⟨"a7".data, "b7".data⟩ emptyFpStore emptyBanStore =
      .ok ⟨.nextA,
           some (makeToken hmacModel "i7".data (nInt (1000000 / 1000 + defaultOpts.waitSeconds))
               (nInt 0) (nInt 0) (generateFingerprint shaModel c4Headers) "b7".data c4Secret,
             1000000 / 1000 + defaultOpts.maxLifetime),
           some ("a7".data, 1000000 / 1000 + defaultOpts.maxLifetime),
           false,
           (checkRateLimit defaultOpts emptyFpStore (generateFingerprint shaModel c4Headers)
             1000000).2,
           (isGloballyBanned emptyBanStore (generateFingerprint shaModel c4Headers)
             (1000000 / 1000)).2⟩ :=
  ⟨by decide, by decide, by decide, by decide, by decide, by decide, rfl, by decide, by decide,
   c7_wait_elapsed_grants hmacModel shaModel defaultOpts c4Secret (c4Req w7Tok) 1000000
     ⟨"a7".data, "b7".data⟩ emptyFpStore emptyBanStore
     ⟨"i7".data, some 900, some 0, some 0, c4Fp, "n7".data⟩
     (by decide) (by decide) (by decide) (by decide) (by decide) (by decide) rfl
     (by decide) (by decide)⟩

/-- A valid fingerprint-matching token with failCount 1 whose allowAt is in
the future. -/
def w3Tok : Str :=
  makeToken hmacModel "i3".data (some 2000) (some 1) (some 0) c4Fp "n3".data c4Secret

/-- Witness for c3_premature_retry at a concrete request. -/
theorem c3_premature_retry_witness :
    pathBypassed ("/page".data) = false ∧
    isAbsUrl (origOf (c4Req w3Tok)) = false ∧
    (isGloballyBanned emptyBanStore (generateFingerprint shaModel c4Headers) (1000000 / 1000)).1
      = none ∧
    (checkRateLimit defaultOpts emptyFpStore (generateFingerprint shaModel c4Headers) 1000000).1
      = true ∧
    detectSuspiciousPattern c4Headers = [] ∧
    parseQueue hmacModel c4Secret (c4Req w3Tok) =
      .ok (some ⟨"i3".data, some 2000, some 1, some 0, c4Fp, "n3".data⟩) ∧
    c4Fp = generateFingerprint shaModel c4Headers ∧
    jsGtNat (some 0) (1000000 / 1000) = false ∧
    ((1000000 / 1000 : Nat) : Int) < 2000 ∧
    (1 : Int) < ((defaultOpts.maxFails : Nat) : Int) ∧
    (((1 : Int) + 1 = ((defaultOpts.maxFails : Nat) : Int) ∨
        (1 : Int) + 1 < ((defaultOpts.maxFails : Nat) : Int)) ∧
     ((1 : Int) + 1 = ((defaultOpts.maxFails : Nat) : Int) →
       zantGateway hmacModel shaModel defaultOpts c4Secret (c4Req w3Tok) 1000000
           ⟨"a3".data, "b3".data⟩ emptyFpStore emptyBanStore =
         .ok ⟨.sendA (.blockedPG ((defaultOpts.banSeconds : Nat) : Int) ("too_many_requests".data)),
              some (makeToken hmacModel "i3".data
                  (nInt (1000000 / 1000 + defaultOpts.banSeconds + defaultOpts.waitSeconds))
                  (nInt 0) (nInt (1000000 / 1000 + defaultOpts.banSeconds))
                  (generateFingerprint shaModel c4Headers) "n3".data c4Secret,
                1000000 / 1000 + defaultOpts.maxLifetime),
              none, true,
              (checkRateLimit defaultOpts emptyFpStore (generateFingerprint shaModel c4Headers)
                1000000).2,
              addGlobalBan
                (isGloballyBanned emptyBanStore (generateFingerprint shaModel c4Headers)
                  (1000000 / 1000)).2
                (generateFingerprint shaModel c4Headers) defaultOpts.banSeconds
                ("too_many_requests".data) (1000000 / 1000)⟩) ∧
     ((1 : Int) + 1 < ((defaultOpts.maxFails : Nat) : Int) →
       zantGateway hmacModel shaModel defaultOpts c4Secret (c4Req w3Tok) 1000000
           ⟨"a3".data, "b3".data⟩ emptyFpStore emptyBanStore =
         .ok ⟨.sendA (.queuePG (max ((2000 : Int) - ((1000000 / 1000 : Nat) : Int)) 1)
                (origOf (c4Req w3Tok)) .retry),
              some (makeToken hmacModel "i3".data (some 2000) (some ((1 : Int) + 1)) (nInt 0)
                  (generateFingerprint shaModel c4Headers) "n3".data c4Secret,
                1000000 / 1000 + defaultOpts.maxLifetime),
              none, false,
              (checkRateLimit defaultOpts emptyFpStore (generateFingerprint shaModel c4Headers)
                1000000).2,
              (isGloballyBanned emptyBanStore (generateFingerprint shaModel c4Headers)
                (1000000 / 1000)).2⟩)) :=
  ⟨by decide, by decide, by decide, by decide, by decide, by decide, rfl, by decide, by decide,
   by decide,
   c3_premature_retry hmacModel shaModel defaultOpts c4Secret (c4Req w3Tok) 1000000
     ⟨"a3".data, "b3".data⟩ emptyFpStore emptyBanStore
     ⟨"i3".data, some 2000, some 1, some 0, c4Fp, "n3".data⟩ 2000 1
     (by decide) (by decide) (by decide) (by decide) (by decide) (by decide) rfl
     (by decide) rfl (by decide) rfl (by decide)⟩

/-- A fingerprint store holding 20 in-window request timestamps. -/
def w5Store : FpStore := insertFp emptyFpStore c4Fp ⟨List.replicate 20 999000, 0⟩

/-- Witness for c5_rate_limit_reject at a concrete request. -/
theorem c5_rate_limit_reject_witness :
    pathBypassed ("/page".data) = false ∧
    isAbsUrl (origOf c4ReqNoCookie) = false ∧
    (isGloballyBanned emptyBanStore (generateFingerprint shaModel c4Headers) (1000000 / 1000)).1
      = none ∧
    defaultOpts.maxRequests = 20 ∧
    defaultOpts.windowMs = 60000 ∧
    w5Store (generateFingerprint shaModel c4Headers) = some ⟨List.replicate 20 999000, 0⟩ ∧
    ((List.replicate 20 999000).filter
        (fun (ts : Nat) => (1000000 : Int) - (ts : Int) < (defaultOpts.windowMs : Int))).length
      = 20 ∧
    ((checkRateLimit defaultOpts w5Store (generateFingerprint shaModel c4Headers) 1000000).1
        = false ∧
     (∀ ts ∈ (List.replicate 20 999000 : List Nat),
        ¬((1000000 : Int) - (ts : Int) < (defaultOpts.windowMs : Int)) →
        ts ∉ (List.replicate 20 999000 : List Nat).filter
          (fun (ts : Nat) => (1000000 : Int) - (ts : Int) < (defaultOpts.windowMs : Int))) ∧
     zantGateway hmacModel shaModel defaultOpts c4Secret c4ReqNoCookie 1000000
         ⟨"a5".data, "b5".data⟩ w5Store emptyBanStore =
       .ok ⟨.sendA (.blockedPG ((defaultOpts.banSeconds : Nat) : Int) ("rate_limit".data)),
            none, none, false,
            insertFp w5Store (generateFingerprint shaModel c4Headers)
              ⟨(List.replicate 20 999000).filter
                (fun (ts : Nat) => (1000000 : Int) - (ts : Int) < (defaultOpts.windowMs : Int)),
               0⟩,
            addGlobalBan
              (isGloballyBanned emptyBanStore (generateFingerprint shaModel c4Headers)
                (1000000 / 1000)).2
              (generateFingerprint shaModel c4Headers) defaultOpts.banSeconds
              ("rate_limit".data) (1000000 / 1000)⟩) :=
  ⟨by decide, by decide, by decide, rfl, rfl, rfl, by decide,
   c5_rate_limit_reject hmacModel shaModel defaultOpts c4Secret c4ReqNoCookie 1000000
     ⟨"a5".data, "b5".data⟩ w5Store emptyBanStore ⟨List.replicate 20 999000, 0⟩
     (by decide) (by decide) (by decide) rfl rfl rfl (by decide)⟩

/-- Headers that trigger suspicion tags: short automated-tool user agent. -/
def w8Headers : Headers := ⟨some "curl/8.0".data, none, none, some "text/html".data⟩

/-- The request of the suspicion witness. -/
def w8Req : Req := ⟨"/page".data, "/page".data, none, none, w8Headers⟩

/-- Witness for c8_suspicion_counter at a concrete request. -/
theorem c8_suspicion_counter_witness :
    pathBypassed ("/page".data) = false ∧
    isAbsUrl (origOf w8Req) = false ∧
    (isGloballyBanned emptyBanStore (generateFingerprint shaModel w8Req.headers)
      (1000000 / 1000)).1 = none ∧
    (checkRateLimit defaultOpts emptyFpStore (generateFingerprint shaModel w8Req.headers)
      1000000).1 = true ∧
    detectSuspiciousPattern w8Req.headers ≠ [] ∧
    ((defaultOpts.suspiciousPatternThreshold ≤
        (((checkRateLimit defaultOpts emptyFpStore (generateFingerprint shaModel w8Req.headers) 1000000).2
            (generateFingerprint shaModel w8Req.headers)).getD ⟨[], 0⟩).suspiciousCount + 1 →
      zantGateway hmacModel shaModel defaultOpts c4Secret w8Req 1000000 ⟨"a8".data, "b8".data⟩ emptyFpStore emptyBanStore =
        .ok ⟨.sendA (.blockedPG ((2 * defaultOpts.banSeconds : Nat) : Int) ("suspicious_pattern".data)),
             none, none, false,
             (if ((checkRateLimit defaultOpts emptyFpStore (generateFingerprint shaModel w8Req.headers) 1000000).2
                  (generateFingerprint shaModel w8Req.headers)).isSome then
                insertFp (checkRateLimit defaultOpts emptyFpStore (generateFingerprint shaModel w8Req.headers) 1000000).2
                  (generateFingerprint shaModel w8Req.headers)
                  ⟨(((checkRateLimit defaultOpts emptyFpStore (generateFingerprint shaModel w8Req.headers) 1000000).2
                      (generateFingerprint shaModel w8Req.headers)).getD ⟨[], 0⟩).requests,
                   (((checkRateLimit defaultOpts emptyFpStore (generateFingerprint shaModel w8Req.headers) 1000000).2
                      (generateFingerprint shaModel w8Req.headers)).getD ⟨[], 0⟩).suspiciousCount + 1⟩
              else (checkRateLimit defaultOpts emptyFpStore (generateFingerprint shaModel w8Req.headers) 1000000).2),
             addGlobalBan
               (isGloballyBanned emptyBanStore (generateFingerprint shaModel w8Req.headers) (1000000 / 1000)).2
               (generateFingerprint shaModel w8Req.headers) (2 * defaultOpts.banSeconds)
               ("suspicious_pattern".data) (1000000 / 1000)⟩) ∧
    ((((checkRateLimit defaultOpts emptyFpStore (generateFingerprint shaModel w8Req.headers) 1000000).2
          (generateFingerprint shaModel w8Req.headers)).getD ⟨[], 0⟩).suspiciousCount + 1 <
        defaultOpts.suspiciousPatternThreshold →
      zantGateway hmacModel shaModel defaultOpts c4Secret w8Req 1000000 ⟨"a8".data, "b8".data⟩ emptyFpStore emptyBanStore =
        zantGatewayToken hmacModel defaultOpts c4Secret w8Req (origOf w8Req) (generateFingerprint shaModel w8Req.headers)
          (1000000 / 1000) ⟨"a8".data, "b8".data⟩
          (insertFp (checkRateLimit defaultOpts emptyFpStore (generateFingerprint shaModel w8Req.headers) 1000000).2
            (generateFingerprint shaModel w8Req.headers)
            ⟨(((checkRateLimit defaultOpts emptyFpStore (generateFingerprint shaModel w8Req.headers) 1000000).2
                (generateFingerprint shaModel w8Req.headers)).getD ⟨[], 0⟩).requests,
             (((checkRateLimit defaultOpts emptyFpStore (generateFingerprint shaModel w8Req.headers) 1000000).2
                (generateFingerprint shaModel w8Req.headers)).getD ⟨[], 0⟩).suspiciousCount + 1⟩)
          (isGloballyBanned emptyBanStore (generateFingerprint shaModel w8Req.headers) (1000000 / 1000)).2 ∧
      ((insertFp (checkRateLimit defaultOpts emptyFpStore (generateFingerprint shaModel w8Req.headers) 1000000).2
          (generateFingerprint shaModel w8Req.headers)
          ⟨(((checkRateLimit defaultOpts emptyFpStore (generateFingerprint shaModel w8Req.headers) 1000000).2
              (generateFingerprint shaModel w8Req.headers)).getD ⟨[], 0⟩).requests,
           (((checkRateLimit defaultOpts emptyFpStore (generateFingerprint shaModel w8Req.headers) 1000000).2
              (generateFingerprint shaModel w8Req.headers)).getD ⟨[], 0⟩).suspiciousCount + 1⟩)
          (generateFingerprint shaModel w8Req.headers)).getD ⟨[], 0⟩ =
        ⟨(((checkRateLimit defaultOpts emptyFpStore (generateFingerprint shaModel w8Req.headers) 1000000).2
            (generateFingerprint shaModel w8Req.headers)).getD ⟨[], 0⟩).requests,
         (((checkRateLimit defaultOpts emptyFpStore (generateFingerprint shaModel w8Req.headers) 1000000).2
            (generateFingerprint shaModel w8Req.headers)).getD ⟨[], 0⟩).suspiciousCount + 1⟩)) :=
  ⟨by decide, by decide, by decide, by decide, by decide,
   c8_suspicion_counter hmacModel shaModel defaultOpts c4Secret w8Req 1000000
     ⟨"a8".data, "b8".data⟩ emptyFpStore emptyBanStore
     (by decide) (by decide) (by decide) (by decide) (by decide)⟩

/-- The first-visit output of the gateway on the cookie-less request, spelled
out. -/
def w10Out : StepOut :=
  ⟨.sendA (.queuePG 5 ("/page".data) .first),
   some (makeToken hmacModel "id0".data (nInt 1005) (nInt 0) (nInt 0) c4Fp "n0".data c4Secret,
     4600),
   none, false, insertFp emptyFpStore c4Fp ⟨[1000000], 0⟩, emptyBanStore⟩

theorem w10_parse_none : parseQueue hmacModel c4Secret c4ReqNoCookie = JsResult.ok none := by
  decide

theorem w10_hfc : ∀ st : QTok,
    parseQueue hmacModel c4Secret c4ReqNoCookie = .ok (some st) → st.fail_count.isSome := by
  intro st h
  rw [w10_parse_none] at h
  simp at h

/-- Witness for c10_issued_token_invariant at a concrete request. -/
theorem c10_issued_token_invariant_witness :
    0 < defaultOpts.maxFails ∧
    (∀ st : QTok, parseQueue hmacModel c4Secret c4ReqNoCookie = .ok (some st) →
      st.fail_count.isSome) ∧
    zantGateway hmacModel shaModel defaultOpts c4Secret c4ReqNoCookie 1000000
        ⟨"id0".data, "n0".data⟩ emptyFpStore emptyBanStore = .ok w10Out ∧
    w10Out.queueSet = some (makeToken hmacModel "id0".data (nInt 1005) (nInt 0) (nInt 0)
        c4Fp "n0".data c4Secret, 4600) ∧
    (∃ (id : Str) (aAj fCj bUj : JSNum) (fpx nce : Str),
      makeToken hmacModel "id0".data (nInt 1005) (nInt 0) (nInt 0) c4Fp "n0".data c4Secret =
        makeToken hmacModel id aAj fCj bUj fpx nce c4Secret ∧
      (∃ fC : Int, fCj = some fC ∧ fC < (defaultOpts.maxFails : Int)) ∧
      (bUj = nInt 0 ∨
        (bUj = nInt (1000000 / 1000 + defaultOpts.banSeconds) ∧
         aAj = nInt (1000000 / 1000 + defaultOpts.banSeconds + defaultOpts.waitSeconds)))) :=
  ⟨by decide, w10_hfc, rfl, rfl,
   c10_issued_token_invariant hmacModel shaModel defaultOpts c4Secret c4ReqNoCookie 1000000
     ⟨"id0".data, "n0".data⟩ emptyFpStore emptyBanStore (by decide) w10_hfc w10Out
     (makeToken hmacModel "id0".data (nInt 1005) (nInt 0) (nInt 0) c4Fp "n0".data c4Secret)
     4600 rfl rfl⟩
